import Mathlib

/-!
Verification development for the gfw-sim capacity-planning simulator.

The Python sources are shallowly embedded: dataclasses become structures,
Python `dict`s (which preserve insertion order) become association lists
`List (String × α)` with dict-style insertion (update in place, else append),
`float` becomes `ℚ` (the arithmetic in the claims is exact at rational
inputs), and fallible code returns `Except String`.  In-place mutation of a
snapshot is made observable by returning, next to the result, the value the
input snapshot holds after the call (`MutOutcome`).
-/

namespace GfwSim

/-- Dict-style lookup in an association list (first binding wins, as keys are
unique in a Python dict). -/
def alGet {α : Type} : List (String × α) → String → Option α
  | [], _ => none
  | kv :: rest, k => if kv.1 = k then some kv.2 else alGet rest k

/-- Dict-style assignment: overwrite the value at an existing key keeping its
position, otherwise append the binding (Python `d[k] = v`). -/
def alInsert {α : Type} (l : List (String × α)) (k : String) (v : α) :
    List (String × α) :=
  if l.any (fun kv => kv.1 = k) then
    l.map (fun kv => if kv.1 = k then (k, v) else kv)
  else l ++ [(k, v)]

/-- Dict-style `pop`: drop the binding for a key (Python `d.pop(k, None)`). -/
def alPop {α : Type} (l : List (String × α)) (k : String) : List (String × α) :=
  l.filter (fun kv => kv.1 ≠ k)

/-- Keys in insertion order. -/
def alKeys {α : Type} (l : List (String × α)) : List String := l.map (·.1)

/-- Values in insertion order. -/
def alValues {α : Type} (l : List (String × α)) : List α := l.map (·.2)

/-- Membership of a key (Python `k in d`). -/
def alHasKey {α : Type} (l : List (String × α)) (k : String) : Bool :=
  l.any (fun kv => kv.1 = k)

/-- First-occurrence deduplication, as Python `dict`/`set` insertion does. -/
def dedupFirst (l : List String) : List String :=
  l.foldl (fun acc x => if acc.contains x then acc else acc ++ [x]) []

/-- A node or pool taint, a JSON object with keys `key`/`value`/`effect`
(`gfw_sim/sim/constraints.py`, `_normalize_taints`). -/
structure Taint where
  key : Option String
  value : Option String
  effect : Option String
  deriving DecidableEq, Repr

/-- A pod toleration, a JSON object with keys `key`/`operator`/`value`/`effect`
(`gfw_sim/sim/constraints.py`, `_normalize_tolerations`).  A missing dict key
and an explicit `null` are both modelled as `none`. -/
structure Toleration where
  key : Option String
  operator : Option String
  value : Option String
  effect : Option String
  deriving DecidableEq, Repr

/-- One `podAntiAffinity.requiredDuringSchedulingIgnoredDuringExecution` term;
the code only ever reads its `topologyKey` (`simulate.py`,
`_check_anti_affinity_conflict`). -/
structure AntiAffinityTerm where
  topologyKey : Option String
  deriving DecidableEq, Repr

/-- The parts of the untyped `affinity` JSON blob the code reads. -/
structure Affinity where
  podAntiRequired : List AntiAffinityTerm
  deriving DecidableEq, Repr

def Affinity.empty : Affinity := ⟨[]⟩

/-- `gfw_sim/model/entities.py`, `Node`. -/
structure Node where
  id : String
  name : String
  nodepool : String
  instance_type : String
  alloc_cpu_m : Int
  alloc_mem_b : Int
  alloc_pods : Int := 110
  capacity_type : String := "on_demand"
  labels : List (String × String) := []
  taints : List Taint := []
  is_virtual : Bool := false
  uptime_hours_24h : ℚ := 24
  deriving DecidableEq, Repr

/-- `gfw_sim/model/entities.py`, `Pod`. -/
structure Pod where
  id : String
  name : String
  «namespace» : String
  node : Option String
  owner_kind : Option String
  owner_name : Option String
  req_cpu_m : Int
  req_mem_b : Int
  limit_cpu_m : Option Int := none
  limit_mem_b : Option Int := none
  is_daemonset : Bool := false
  is_system : Bool := false
  is_gfw : Bool := false
  tolerations : List Toleration := []
  node_selector : List (String × String) := []
  affinity : Affinity := Affinity.empty
  usage_cpu_m : Option Int := none
  usage_mem_b : Option Int := none
  active_ratio : ℚ := 1
  deriving DecidableEq, Repr

/-- `gfw_sim/model/entities.py`, `NodePool`. -/
structure NodePool where
  name : String
  labels : List (String × String) := []
  taints : List Taint := []
  is_keda : Bool := false
  schedule_name : String := "default"
  consolidation_policy : String := "WhenUnderutilized"
  deriving DecidableEq, Repr

/-- `gfw_sim/model/entities.py`, `InstancePrice`. -/
structure InstancePrice where
  instance_type : String
  usd_per_hour : ℚ
  purchasing : String := "on_demand"
  source : String := "unknown"
  deriving DecidableEq, Repr

/-- `gfw_sim/model/entities.py`, `Schedule`. -/
structure Schedule where
  name : String
  hours_per_day : ℚ := 24
  days_per_week : ℚ := 7
  deriving DecidableEq, Repr

/-- One `history_usage` entry `{pool, instance, instance_hours_24h}`. -/
structure HistoryEntry where
  pool : String
  «instance» : String
  instance_hours_24h : ℚ
  deriving DecidableEq, Repr

/-- `gfw_sim/model/entities.py`, `Snapshot`.  The keyed maps are association
lists in insertion order, as Python dicts are. -/
structure Snapshot where
  nodes : List (String × Node)
  pods : List (String × Pod)
  nodepools : List (String × NodePool)
  prices : List (String × InstancePrice)
  schedules : List (String × Schedule)
  keda_pool_name : Option String := none
  history_usage : List HistoryEntry := []
  deriving DecidableEq, Repr

/-! ## Mutation operations (`gfw_sim/sim/operations.py`) -/

/-- `operations._is_workload_pod`: a workload pod is neither system nor
DaemonSet; such pods keep a node alive. -/
def is_workload_pod (p : Pod) : Bool :=
  !p.is_system && !p.is_daemonset

/-- The pods grouped under a node name by `_cleanup_empty_nodes` (pods whose
`node` is truthy and equal to the name). -/
def podsBoundToNode (pods : List (String × Pod)) (nodeName : String) :
    List (String × Pod) :=
  pods.filter (fun kv => kv.2.node.getD "" ≠ "" && kv.2.node == some nodeName)

/-- `_cleanup_empty_nodes`: whether a node lands in `to_delete_nodes` — no pods
at all, or no workload pod among them. -/
def nodeIsRemovable (pods : List (String × Pod)) (nodeName : String) : Bool :=
  let entries := podsBoundToNode pods nodeName
  if entries.isEmpty then true
  else ! entries.any (fun e => is_workload_pod e.2)

/-- `operations._cleanup_empty_nodes`, as a function from the snapshot to the
snapshot it leaves behind (the Python mutates in place).  Each removable node
is popped; system/DaemonSet pods bound to it are popped, any other pod bound
to it has its `node` cleared (the defensive `else` branch of the source). -/
def cleanup_empty_nodes (s : Snapshot) : Snapshot :=
  let toDelete := (s.nodes.filter (fun kv => nodeIsRemovable s.pods kv.1)).map (·.1)
  let step := fun (acc : List (String × Node) × List (String × Pod)) (nodeName : String) =>
    (alPop acc.1 nodeName,
     acc.2.filterMap (fun kv =>
       if kv.2.node ≠ some nodeName then some kv
       else if kv.2.is_system || kv.2.is_daemonset then none
       else some (kv.1, { kv.2 with node := none })))
  let fin := toDelete.foldl step (s.nodes, s.pods)
  { s with nodes := fin.1, pods := fin.2 }

/-- `server._prune_nodes_only_daemonsets`: keep exactly the nodes that host at
least one non-DaemonSet pod, then null out dangling `pod.node` references. -/
def prune_nodes_only_daemonsets (s : Snapshot) : Snapshot :=
  if s.nodes.isEmpty then s
  else
    let keep := (s.pods.filter
      (fun kv => kv.2.node.getD "" ≠ "" && !kv.2.is_daemonset)).map
      (fun kv => kv.2.node.getD "")
    let nodes2 := s.nodes.filter (fun kv => keep.contains kv.1)
    let pods2 := s.pods.map (fun kv =>
      if kv.2.node.getD "" ≠ "" && !(alHasKey nodes2 (kv.2.node.getD "")) then
        (kv.1, { kv.2 with node := none })
      else kv)
    { s with nodes := nodes2, pods := pods2 }

/-- `operations.patch_pods_in_snapshot`: whole-field replacement for the
collections, point updates for the scalars; pods not in `pod_ids` are shared
unchanged.  The input snapshot is not mutated. -/
def patch_pods_in_snapshot (s : Snapshot) (pod_ids : List String)
    (req_cpu_m req_mem_b : Option Int) (tolerations : Option (List Toleration))
    (node_selector : Option (List (String × String)))
    (affinity : Option Affinity) : Snapshot :=
  if pod_ids.isEmpty then s
  else
    let patchOne := fun (p : Pod) =>
      let p := match req_cpu_m with | some v => { p with req_cpu_m := v } | none => p
      let p := match req_mem_b with | some v => { p with req_mem_b := v } | none => p
      let p := match tolerations with | some v => { p with tolerations := v } | none => p
      let p := match node_selector with | some v => { p with node_selector := v } | none => p
      let p := match affinity with | some v => { p with affinity := v } | none => p
      p
    -- the source rebuilds the Snapshot without passing history_usage,
    -- so that field falls back to its dataclass default ([])
    { nodes := s.nodes,
      pods := s.pods.map (fun kv =>
        if pod_ids.contains kv.1 then (kv.1, patchOne kv.2) else kv),
      nodepools := s.nodepools, prices := s.prices, schedules := s.schedules,
      keda_pool_name := s.keda_pool_name, history_usage := [] }

/-- `operations.delete_pods` as a pure value: pop each listed pod id from
`snapshot.pods`, then run the GC pass. -/
def delete_pods (s : Snapshot) (pod_ids : List String) : Snapshot :=
  cleanup_empty_nodes { s with pods := pod_ids.foldl alPop s.pods }

/-- Observable effect of one mutation call: the returned snapshot, and the
value the caller's input snapshot holds after the call (they differ from each
other exactly when the operation worked on a fresh copy). -/
structure MutOutcome where
  ret : Snapshot
  inputAfter : Snapshot
  deriving DecidableEq, Repr

/-- `delete_pods` pops from the input snapshot's own `pods` dict and the GC
pass mutates its own containers, so the input after the call IS the returned
snapshot. -/
def delete_pods_op (s : Snapshot) (pod_ids : List String) : MutOutcome :=
  let r := delete_pods s pod_ids
  ⟨r, r⟩

/-- `patch_pods_in_snapshot` builds a new pods dict with deep-copied patched
pods and returns a new `Snapshot`; the input is untouched. -/
def patch_pods_op (s : Snapshot) (pod_ids : List String)
    (req_cpu_m req_mem_b : Option Int) (tolerations : Option (List Toleration))
    (node_selector : Option (List (String × String)))
    (affinity : Option Affinity) : MutOutcome :=
  ⟨patch_pods_in_snapshot s pod_ids req_cpu_m req_mem_b tolerations node_selector affinity, s⟩

/-! ## Packer (`gfw_sim/sim/packing.py`), with the price helpers it calls
(`gfw_sim/sim/costs.py`).  The process-wide pricing state is passed
explicitly as `gp : List (String × ℚ)` (instance type → USD per hour). -/

/-- The compiled-in default price table (`costs._DEFAULT_PRICES`). -/
def defaultHourlyPrices : List (String × ℚ) :=
  [("t3a.medium", 432/10000), ("t3a.large", 864/10000),
   ("t3a.xlarge", 1728/10000), ("r6a.large", 1368/10000),
   ("r6a.xlarge", 2736/10000)]

/-- `costs._effective_daily_hours_for_pool`: 24, except pools whose lowered
name contains both substrings `keda` and `nightly` run 60/7 hours a day. -/
def effective_daily_hours_for_pool (nodepool : String) : ℚ :=
  let pool := nodepool.toLower
  if ("keda".toList <:+: pool.toList) ∧ ("nightly".toList <:+: pool.toList)
  then (60 : ℚ) / 7 else 24

/-- `costs.node_daily_cost_from_instance`: (daily cost, price missing?). -/
def node_daily_cost_from_instance (gp : List (String × ℚ))
    (instance_type nodepool : String) : ℚ × Bool :=
  let hourly := alGet gp instance_type
  ((hourly.getD 0) * effective_daily_hours_for_pool nodepool, hourly.isNone)

/-- `costs.node_daily_cost`: ignores the snapshot's schedule/prices arguments
and uses the process-wide table. -/
def node_daily_cost (gp : List (String × ℚ)) (n : Node) : ℚ :=
  (node_daily_cost_from_instance gp n.instance_type n.nodepool).1

/-- Python `min(xs, key=f)`: first element attaining the minimum of `f`,
`none` on an empty list. -/
def pyMinBy {α : Type} (f : α → ℚ) (l : List α) : Option α :=
  l.foldl (fun best x =>
    match best with
    | none => some x
    | some b => if f x < f b then some x else some b) none

/-- `packing._choose_template_for_pool`: the node of the pool (real or
virtual) with the lowest `node_daily_cost`. -/
def choose_template_for_pool (gp : List (String × ℚ)) (s : Snapshot)
    (pool : String) : Option Node :=
  pyMinBy (node_daily_cost gp) ((alValues s.nodes).filter (fun n => n.nodepool = pool))

/-- `packing.NodeUsage`. -/
structure NodeUsage where
  cpu_m : Int := 0
  mem_b : Int := 0
  deriving DecidableEq, Repr

/-- `packing._compute_initial_usage`: requests of the non-moving bound pods,
accumulated per node (nodes of the snapshot start at zero). -/
def compute_initial_usage (s : Snapshot) (podsToMove : List String) :
    List (String × NodeUsage) :=
  let init : List (String × NodeUsage) := s.nodes.map (fun kv => (kv.1, {}))
  s.pods.foldl (fun usage kv =>
    match kv.2.node with
    | none => usage
    | some nodeId =>
      if podsToMove.contains kv.1 then usage
      else
        let u := (alGet usage nodeId).getD {}
        alInsert usage nodeId
          { cpu_m := u.cpu_m + kv.2.req_cpu_m, mem_b := u.mem_b + kv.2.req_mem_b }) init

/-- `packing._can_schedule_on_node`. -/
def can_schedule_on_node (p : Pod) (n : Node) (u : NodeUsage) : Bool :=
  if p.req_cpu_m ≤ 0 && p.req_mem_b ≤ 0 then true
  else if u.cpu_m + p.req_cpu_m > n.alloc_cpu_m then false
  else if u.mem_b + p.req_mem_b > n.alloc_mem_b then false
  else true

/-- The packing score of `move_pods_to_pool`:
`remaining_cpu + remaining_mem / 1024.0` after placing the pod. -/
def packScore (n : Node) (u : NodeUsage) (p : Pod) : ℚ :=
  let remaining_cpu := n.alloc_cpu_m - (u.cpu_m + p.req_cpu_m)
  let remaining_mem := n.alloc_mem_b - (u.mem_b + p.req_mem_b)
  (remaining_cpu : ℚ) + (remaining_mem : ℚ) / 1024

/-- The node copy `move_pods_to_pool` builds for every node of the snapshot:
the constructor call passes neither `alloc_pods` nor `uptime_hours_24h`, so
those fall back to the dataclass defaults (110 and 24). -/
def copyNodeForMove (n : Node) : Node :=
  { id := n.id, name := n.name, nodepool := n.nodepool,
    instance_type := n.instance_type, alloc_cpu_m := n.alloc_cpu_m,
    alloc_mem_b := n.alloc_mem_b, capacity_type := n.capacity_type,
    labels := n.labels, taints := n.taints, is_virtual := n.is_virtual }

/-- The pod copy `move_pods_to_pool` builds for every moving pod: `node` is
cleared; the constructor call passes neither `usage_cpu_m`, `usage_mem_b` nor
`active_ratio`, so those fall back to the dataclass defaults. -/
def copyPodForMove (p : Pod) : Pod :=
  { id := p.id, name := p.name, «namespace» := p.«namespace», node := none,
    owner_kind := p.owner_kind, owner_name := p.owner_name,
    req_cpu_m := p.req_cpu_m, req_mem_b := p.req_mem_b,
    limit_cpu_m := p.limit_cpu_m, limit_mem_b := p.limit_mem_b,
    is_daemonset := p.is_daemonset, is_system := p.is_system,
    is_gfw := p.is_gfw, tolerations := p.tolerations,
    node_selector := p.node_selector, affinity := p.affinity }

/-- `create_virtual_node` inside `move_pods_to_pool`; `alloc_pods` and
`uptime_hours_24h` are again not passed and default. -/
def create_virtual_node (template : Node) (index : Nat) : Node :=
  let newName := template.name ++ "-virt-" ++ toString index
  { id := newName, name := newName, nodepool := template.nodepool,
    instance_type := template.instance_type,
    alloc_cpu_m := template.alloc_cpu_m, alloc_mem_b := template.alloc_mem_b,
    capacity_type := template.capacity_type, labels := template.labels,
    taints := template.taints, is_virtual := true }

/-- One iteration of the candidate scan of `move_pods_to_pool`: skip nodes
outside the pool or that do not fit, otherwise keep the best (strictly
smaller) score seen so far, first winner on ties. -/
def selectStep (targetPool : String) (p : Pod)
    (usage : List (String × NodeUsage)) (best : Option (String × ℚ))
    (kv : String × Node) : Option (String × ℚ) :=
  if kv.2.nodepool ≠ targetPool then best
  else
    let u := (alGet usage kv.1).getD {}
    if ¬ can_schedule_on_node p kv.2 u then best
    else
      let score := packScore kv.2 u p
      match best with
      | none => some (kv.1, score)
      | some (bid, bscore) =>
        if score < bscore then some (kv.1, score) else some (bid, bscore)

/-- The candidate scan of `move_pods_to_pool` for one pod. -/
def select_best_node (targetPool : String) (p : Pod)
    (nodes : List (String × Node)) (usage : List (String × NodeUsage)) :
    Option (String × ℚ) :=
  nodes.foldl (selectStep targetPool p usage) none

/-- Working state of the packing loop of `move_pods_to_pool`. -/
structure PackState where
  nodes : List (String × Node)
  pods : List (String × Pod)
  usage : List (String × NodeUsage)
  counter : Nat
  deriving DecidableEq, Repr

/-- One iteration of the `for pod_id in pod_ids` loop of
`move_pods_to_pool`: place on the best candidate, else synthesize a virtual
node from the template; a pod id absent from the snapshot raises. -/
def place_one_pod (targetPool : String) (template : Node) (st : PackState)
    (pid : String) : Except String PackState :=
  match alGet st.pods pid with
  | none => Except.error ("KeyError: " ++ pid)
  | some pod =>
    let next :=
      match select_best_node targetPool pod st.nodes st.usage with
      | some (bid, _) => (st.nodes, st.usage, st.counter, bid)
      | none =>
        let counter := st.counter + 1
        let vnode := create_virtual_node template counter
        (alInsert st.nodes vnode.id vnode, alInsert st.usage vnode.id {},
         counter, vnode.id)
    let u := (alGet next.2.1 next.2.2.2).getD {}
    Except.ok
      { nodes := next.1,
        pods := alInsert st.pods pid { pod with node := some next.2.2.2 },
        usage := alInsert next.2.1 next.2.2.2
          { cpu_m := u.cpu_m + pod.req_cpu_m, mem_b := u.mem_b + pod.req_mem_b },
        counter := next.2.2.1 }

/-- The fresh node dict `move_pods_to_pool` starts from (every node
re-instantiated through `copyNodeForMove`). -/
def baseNodesCopy (s : Snapshot) : List (String × Node) :=
  s.nodes.map (fun kv => (kv.1, copyNodeForMove kv.2))

/-- The fresh pod dict `move_pods_to_pool` starts from (moving pods
re-instantiated through `copyPodForMove`, the rest shared). -/
def basePodsCopy (s : Snapshot) (pod_ids : List String) : List (String × Pod) :=
  s.pods.map (fun kv =>
    if pod_ids.contains kv.1 then (kv.1, copyPodForMove kv.2) else kv)

/-- The state the packing loop of `move_pods_to_pool` starts from. -/
def initPackState (s : Snapshot) (pod_ids : List String) : PackState :=
  { nodes := baseNodesCopy s, pods := basePodsCopy s pod_ids,
    usage := compute_initial_usage s pod_ids, counter := 0 }

/-- `packing.move_pods_to_pool`.  The result `Snapshot` constructor call in
the source does not pass `history_usage`, which therefore defaults. -/
def move_pods_to_pool (gp : List (String × ℚ)) (s : Snapshot)
    (pod_ids : List String) (target_pool : String) : Except String Snapshot :=
  if pod_ids.isEmpty then Except.ok s
  else
    match choose_template_for_pool gp s target_pool with
    | none =>
      Except.error ("No nodes found in pool " ++ target_pool ++ ", cannot derive template")
    | some template =>
      match pod_ids.foldlM (place_one_pod target_pool template)
          (initPackState s pod_ids) with
      | Except.error e => Except.error e
      | Except.ok st =>
        Except.ok
          { nodes := st.nodes, pods := st.pods, nodepools := s.nodepools,
            prices := s.prices, schedules := s.schedules,
            keda_pool_name := s.keda_pool_name, history_usage := [] }

/-- `move_pods_to_pool` builds fresh node and pod dicts and never writes into
the input snapshot, so the input is unchanged after the call. -/
def move_pods_to_pool_op (gp : List (String × ℚ)) (s : Snapshot)
    (pod_ids : List String) (target_pool : String) :
    Except String Snapshot × Snapshot :=
  (move_pods_to_pool gp s pod_ids target_pool, s)

/-- A node of the candidate scan that is eligible for the pod: in the target
pool, and the pod's requests fit its remaining allocatable. -/
def isPackCandidate (targetPool : String) (p : Pod)
    (usage : List (String × NodeUsage)) (kv : String × Node) : Prop :=
  kv.2.nodepool = targetPool ∧
    can_schedule_on_node p kv.2 ((alGet usage kv.1).getD {}) = true

/-- Score of a scanned node for the pod. -/
def candScore (p : Pod) (usage : List (String × NodeUsage))
    (kv : String × Node) : ℚ :=
  packScore kv.2 ((alGet usage kv.1).getD {}) p

/-- Frame invariant of the packing loop on the pod dict: pods outside the
move keep their original value, moving pods hold their `copyPodForMove` copy
with some node assignment. -/
def PodsInvariant (s : Snapshot) (pids : List String)
    (pods : List (String × Pod)) : Prop :=
  (∀ pid, pid ∉ pids → alGet pods pid = alGet s.pods pid) ∧
  (∀ pid p, pid ∈ pids → alGet s.pods pid = some p →
    ∃ X, alGet pods pid = some { copyPodForMove p with node := X })

/-- Frame invariant of the packing loop on the node dict: the copies of the
original nodes stay in front, everything appended is a virtual clone of the
template. -/
def NodesInvariant (s : Snapshot) (template : Node)
    (nodes : List (String × Node)) : Prop :=
  ∃ extra, nodes = baseNodesCopy s ++ extra ∧
    ∀ kv ∈ extra, ∃ i : Nat,
      kv = ((create_virtual_node template i).id, create_virtual_node template i)

/-! ## Constraint evaluator (`gfw_sim/sim/constraints.py`) -/

/-- Python `str(x) if x is not None else ""` — the value normalization used by
the `Equal` branch of `_taint_tolerated`. -/
def strOfOpt (v : Option String) : String := v.getD ""

/-- Python `str.capitalize()`: first character upper-cased, the rest
lower-cased. -/
def pyCapitalize (s : String) : String :=
  match s.toList with
  | [] => ""
  | c :: rest => String.mk (c.toUpper :: rest.map Char.toLower)

/-- The body of the `for tol in tolerations` loop of
`constraints._taint_tolerated`: does this single toleration make the loop
return `True`? -/
def tolerationMatchesTaint (key value effect : Option String)
    (tol : Toleration) : Bool :=
  let rawOp := tol.operator.getD ""
  let op := pyCapitalize (if rawOp = "" then "Equal" else rawOp)
  if tol.effect.getD "" ≠ "" && effect.getD "" ≠ ""
      && tol.effect.getD "" ≠ effect.getD "" then false
  else
    match tol.key with
    | none => op = "Exists"
    | some k =>
      if (some k : Option String) ≠ key then false
      else if op = "Exists" then true
      else if op = "Equal" then strOfOpt tol.value = strOfOpt value
      else false

/-- `constraints._taint_tolerated`. -/
def taint_tolerated (key value effect : Option String)
    (tolerations : List Toleration) : Bool :=
  tolerations.any (tolerationMatchesTaint key value effect)

/-- `constraints._check_taints_and_tolerations` (the `_normalize_*` helpers
are the identity on this typed model).  Message punctuation is elided. -/
def check_taints_and_tolerations (nodeTaints : List Taint)
    (podTolerations : List Toleration) : List String :=
  nodeTaints.foldl (fun reasons t =>
    let effect := if t.effect.getD "" = "" then "NoSchedule" else t.effect.getD ""
    if effect ≠ "NoSchedule" && effect ≠ "NoExecute" then reasons
    else if taint_tolerated t.key t.value (some effect) podTolerations then reasons
    else
      let k := strOfOpt t.key
      let v := strOfOpt t.value
      reasons ++ [s!"taint {k}={v} with effect {effect} is not tolerated by pod"]) []

/-! ## Concrete scenario: a node whose only pod is a non-DaemonSet system pod -/

/-- A node hosting exactly one pod. -/
def sysNode : Node :=
  { id := "n1", name := "n1", nodepool := "pool-a", instance_type := "t3a.medium",
    alloc_cpu_m := 2000, alloc_mem_b := 4294967296 }

/-- A system pod that is not a DaemonSet, bound to `n1`. -/
def sysPod : Pod :=
  { id := "metrics/collector-0", name := "collector-0", «namespace» := "metrics",
    node := some "n1", owner_kind := some "StatefulSet",
    owner_name := some "collector", req_cpu_m := 100, req_mem_b := 268435456,
    is_system := true }

/-- Snapshot whose only node hosts only the non-DaemonSet system pod. -/
def sysOnlySnap : Snapshot :=
  { nodes := [("n1", sysNode)], pods := [("metrics/collector-0", sysPod)],
    nodepools := [], prices := [], schedules := [] }

/-- The empty snapshot (used as a fallback when destructuring `Except`). -/
def emptySnap : Snapshot :=
  { nodes := [], pods := [], nodepools := [], prices := [], schedules := [] }

/-! ## Concrete packing scenarios -/

/-- A pool-`B` node with non-default `alloc_pods` and `uptime_hours_24h`. -/
def packNodeB : Node :=
  { id := "bn", name := "bn", nodepool := "B", instance_type := "r6a.large",
    alloc_cpu_m := 2000, alloc_mem_b := 8589934592, alloc_pods := 50,
    uptime_hours_24h := 10 }

/-- Anti-affinity on the node hostname, as the simulator reads it. -/
def hostnameAntiAffinity : Affinity := ⟨[⟨some "kubernetes.io/hostname"⟩]⟩

/-- First replica of an owner with a long name, carrying required pod
anti-affinity on the hostname topology. -/
def podWeb1 : Pod :=
  { id := "ns/web-1", name := "web-1", «namespace» := "ns", node := none,
    owner_kind := some "ReplicaSet", owner_name := some "webserver-deployment-abc",
    req_cpu_m := 500, req_mem_b := 1073741824, affinity := hostnameAntiAffinity }

/-- Second replica of the same owner, same anti-affinity. -/
def podWeb2 : Pod :=
  { id := "ns/web-2", name := "web-2", «namespace» := "ns", node := none,
    owner_kind := some "ReplicaSet", owner_name := some "webserver-deployment-abc",
    req_cpu_m := 500, req_mem_b := 1073741824, affinity := hostnameAntiAffinity }

/-- A pod too large for any real node of the pool. -/
def podBig : Pod :=
  { id := "ns/big", name := "big", «namespace» := "ns", node := none,
    owner_kind := some "Deployment", owner_name := some "big",
    req_cpu_m := 100000, req_mem_b := 1073741824 }

/-- Packing scenario: one pool-`B` node, two anti-affine replicas and one
oversized pod to move. -/
def packSnapC3 : Snapshot :=
  { nodes := [("bn", packNodeB)],
    pods := [("ns/web-1", podWeb1), ("ns/web-2", podWeb2), ("ns/big", podBig)],
    nodepools := [("B", { name := "B" })], prices := [], schedules := [] }

/-- The snapshot `move_pods_to_pool` returns on the packing scenario. -/
def moveResultC3 : Snapshot :=
  (move_pods_to_pool defaultHourlyPrices packSnapC3
    ["ns/web-1", "ns/web-2", "ns/big"] "B").toOption.getD emptySnap

/-- A pod bound to `bn` with observed usage and a sub-1 duty cycle. -/
def podApp1 : Pod :=
  { id := "ns/app-1", name := "app-1", «namespace» := "ns", node := some "bn",
    owner_kind := some "ReplicaSet", owner_name := some "app-abc",
    req_cpu_m := 100, req_mem_b := 1073741824,
    usage_cpu_m := some 120, usage_mem_b := some 1000, active_ratio := 1/2 }

/-- Frame scenario: move the one bound pod within its own pool. -/
def frameSnapC5 : Snapshot :=
  { nodes := [("bn", packNodeB)], pods := [("ns/app-1", podApp1)],
    nodepools := [("B", { name := "B" })], prices := [], schedules := [] }

/-- The snapshot `move_pods_to_pool` returns on the frame scenario. -/
def moveResultC5 : Snapshot :=
  (move_pods_to_pool defaultHourlyPrices frameSnapC5 ["ns/app-1"] "B").toOption.getD emptySnap

/-- Presence of keys in the pod dict is preserved by the packing loop. -/
def PresInv (s : Snapshot) (pods : List (String × Pod)) : Prop :=
  ∀ k, (alGet s.pods k).isSome → (alGet pods k).isSome

/-- An otherwise-empty pack state holding just the oversized pod, used to
exercise the virtual-synthesis branch. -/
def virtWitnessState : PackState := ⟨[], [("ns/big", podBig)], [], 0⟩

/-! ## The move_owner_to_pool branch of server.mutate (claim C6) -/

/-- Python `s.startswith(pre)`. -/
def pyStartsWith (s pre : String) : Bool := pre.toList.isPrefixOf s.toList

/-- The optional `overrides` object of a mutate operation
(the fields `server.mutate` reads). -/
structure Overrides where
  req_cpu_m : Option Int := none
  req_mem_b : Option Int := none
  tolerations : Option (List Toleration) := none
  node_selector : Option (List (String × String)) := none
  affinity : Option Affinity := none
  deriving DecidableEq, Repr

/-- The match condition of the `move_owner_to_pool` branch of `server.mutate`:
exact `(owner_kind, owner_name)` match, or the Deployment→ReplicaSet
owner-name-starts-with heuristic.  The op's `namespace` field is never
consulted. -/
def serverOwnerMatch (ownerKind ownerName : String) (p : Pod) : Bool :=
  if p.owner_kind == some ownerKind && p.owner_name == some ownerName then true
  else if ownerKind == "Deployment" && p.owner_kind == some "ReplicaSet" then
    (p.owner_name.getD "" != "") && pyStartsWith (p.owner_name.getD "") ownerName
  else false

/-- The in-branch override application (`if op.overrides.req_cpu_m:` is a
truthiness test, so a zero override is ignored; the collection fields use
`is not None`). -/
def applyOverrides (o : Overrides) (p : Pod) : Pod :=
  let p := match o.req_cpu_m with
    | some v => if v ≠ 0 then { p with req_cpu_m := v } else p
    | none => p
  let p := match o.req_mem_b with
    | some v => if v ≠ 0 then { p with req_mem_b := v } else p
    | none => p
  let p := match o.tolerations with
    | some v => { p with tolerations := v } | none => p
  let p := match o.node_selector with
    | some v => { p with node_selector := v } | none => p
  let p := match o.affinity with
    | some v => { p with affinity := v } | none => p
  p

/-- What the branch does to each matched pod: apply overrides, set
`node_selector["karpenter.sh/nodepool"]` to the target pool, clear `node`. -/
def serverMoveOwnerTransform (targetPool : String) (o : Option Overrides)
    (p : Pod) : Pod :=
  let p1 := match o with | some ov => applyOverrides ov p | none => p
  let p2 := { p1 with
    node_selector := alInsert p1.node_selector "karpenter.sh/nodepool" targetPool }
  { p2 with node := none }

/-- The `move_owner_to_pool` branch of `server.mutate` (lines 459–492),
acting on the snapshot in place; returns the snapshot and the log messages
appended (exactly one).  The `namespace` argument is accepted but unused,
mirroring the source. -/
def server_move_owner_to_pool (s : Snapshot)
    («namespace» ownerKind ownerName targetPool : String)
    (o : Option Overrides) : Snapshot × List String :=
  let pods2 := s.pods.map (fun kv =>
    if serverOwnerMatch ownerKind ownerName kv.2 then
      (kv.1, serverMoveOwnerTransform targetPool o kv.2)
    else kv)
  let affectedCount :=
    (s.pods.filter (fun kv => serverOwnerMatch ownerKind ownerName kv.2)).length
  ({ s with pods := pods2 },
   [s!"Moved {ownerKind} {ownerName} ({affectedCount} pods) to pool {targetPool}"])

/-- A pod in a namespace different from the one the operation names. -/
def ownerPodOther : Pod :=
  { id := "other/app-x1", name := "app-x1", «namespace» := "other",
    node := some "bn", owner_kind := some "ReplicaSet",
    owner_name := some "app-abc123", req_cpu_m := 100, req_mem_b := 1073741824 }

/-- Snapshot for the C6 counterexample. -/
def ownerSnapC6 : Snapshot :=
  { nodes := [("bn", packNodeB)], pods := [("other/app-x1", ownerPodOther)],
    nodepools := [("B", { name := "B" })], prices := [], schedules := [] }

/-- Result of `move_owner_to_pool(ns="ns1", "Deployment", "app", pool="B")`. -/
def ownerMoveResultC6 : Snapshot :=
  (server_move_owner_to_pool ownerSnapC6 "ns1" "Deployment" "app" "B" none).1

/-! ## Simulator (`gfw_sim/sim/simulate.py`)

The embedding reproduces every step of `run_simulation` that feeds the
returned totals and pool statistics; the per-node table and the
`pods_by_node` echo (display-only data built from the same intermediate
state) are not carried in the embedded result.  Python's `set` iteration
order for the pool loop is not specified; the embedding fixes the canonical
first-appearance order (existing nodes, then declared pools, then pending
pools) — every per-pool quantity is independent of that order.  The
`AttributeError` crash reachable in `bin_pack_pods` (the rollback branch
calls the non-existent `SimNode.remove`) is modelled as `Except.error`. -/

/-- `simulate.PodView` (the `topology_spread` field is always `[]` because
the `Pod` entity has no `topology_spread_constraints` attribute, and it is
never read; it is omitted). -/
structure PodView where
  id : String
  «namespace» : String
  name : String
  owner_kind : Option String
  owner_name : Option String
  is_gfw : Bool
  is_daemon : Bool
  is_system : Bool
  req_cpu_m : Int
  req_mem_b : Int
  usage_cpu_m : Int := 0
  usage_mem_b : Int := 0
  active_ratio : ℚ := 1
  affinity : Affinity := Affinity.empty
  node_selector : List (String × String) := []
  tolerations : List Toleration := []
  deriving DecidableEq, Repr

/-- `PodView.sort_key`. -/
def PodView.sort_key (p : PodView) : Int × Int × String :=
  (p.req_mem_b, p.req_cpu_m, p.id)

/-- `simulate.PoolStats`. -/
structure PoolStats where
  cost : ℚ
  count : Nat
  deriving DecidableEq, Repr

/-- `simulate.SimulationResult`, restricted to the cost/stat fields (the
table fields are display-only). -/
structure SimulationResult where
  total_cost_daily_usd : ℚ
  pool_stats : List (String × PoolStats)
  projected_pool_stats : List (String × PoolStats)
  projected_total_cost_usd : ℚ
  total_cost_gfw_nodes_usd : ℚ
  total_cost_keda_nodes_usd : ℚ
  deriving DecidableEq, Repr

/-- `simulate.InstanceTypeSpec` (the legacy `ds_overhead_*` fields default to
0 and are only read through the unused `net_cpu`/`net_mem` properties; they
are omitted). -/
structure InstanceTypeSpec where
  name : String
  alloc_cpu : Int
  alloc_mem : Int
  max_pods : Int
  price_hourly : ℚ
  labels : List (String × String) := []
  taints : List Taint := []
  deriving DecidableEq, Repr

/-- `simulate.SimNode`. -/
structure SimNode where
  name : String
  spec : InstanceTypeSpec
  pool : String
  is_existing : Bool := true
  workload_pods : List PodView := []
  daemon_pods : List PodView := []
  deriving DecidableEq, Repr

/-- `SimNode.used_cpu`. -/
def SimNode.used_cpu (n : SimNode) : Int :=
  ((n.workload_pods ++ n.daemon_pods).map (fun p => p.req_cpu_m)).sum

/-- `SimNode.used_mem`. -/
def SimNode.used_mem (n : SimNode) : Int :=
  ((n.workload_pods ++ n.daemon_pods).map (fun p => p.req_mem_b)).sum

/-- `SimNode.pod_count`. -/
def SimNode.pod_count (n : SimNode) : Nat :=
  n.workload_pods.length + n.daemon_pods.length

/-- `SimNode.add`. -/
def SimNode.add (n : SimNode) (p : PodView) : SimNode :=
  if p.is_daemon then { n with daemon_pods := n.daemon_pods ++ [p] }
  else { n with workload_pods := n.workload_pods ++ [p] }

/-- `SimNode.is_empty`: no workload pods. -/
def SimNode.is_empty (n : SimNode) : Bool :=
  n.workload_pods.isEmpty

/-- `SimNode.get_overflow_needs`: excess over the full allocatable. -/
def SimNode.get_overflow_needs (n : SimNode) : Int × Int × Int :=
  (max 0 (n.used_cpu - n.spec.alloc_cpu),
   max 0 (n.used_mem - n.spec.alloc_mem),
   max 0 ((n.pod_count : Int) - n.spec.max_pods))

/-- `SimNode._has_pod_matching_selector`: some pod already on the node, in
the same namespace, whose owner name starts with the candidate owner's
15-character prefix. -/
def SimNode.has_pod_matching_selector (n : SimNode) (p : PodView) : Bool :=
  if p.owner_name.getD "" = "" then false
  else
    let pfx := String.mk ((p.owner_name.getD "").toList.take 15)
    (n.workload_pods ++ n.daemon_pods).any (fun ex =>
      ex.«namespace» == p.«namespace»
      && (ex.owner_name.getD "" != "")
      && pyStartsWith (ex.owner_name.getD "") pfx)

/-- `SimNode._check_anti_affinity_conflict`. -/
def SimNode.check_anti_affinity_conflict (n : SimNode) (p : PodView) : Bool :=
  let pAnti := p.affinity.podAntiRequired
  if pAnti.isEmpty then false
  else pAnti.any (fun term =>
    term.topologyKey == some "kubernetes.io/hostname"
    && n.has_pod_matching_selector p)

/-- `SimNode.can_fit`. -/
def SimNode.can_fit (n : SimNode) (p : PodView) : Bool :=
  if (n.pod_count : Int) + 1 > n.spec.max_pods then false
  else if n.used_cpu + p.req_cpu_m > n.spec.alloc_cpu then false
  else if n.used_mem + p.req_mem_b > n.spec.alloc_mem then false
  else if n.check_anti_affinity_conflict p then false
  else true

/-- `simulate._check_taint_tolerations` (distinct from the constraints
module: no effect check on the toleration, no operator capitalization, and
an `Equal`-style value comparison applies to any operator other than
`Exists`). -/
def sim_check_taint_tolerations (node_taints : List Taint)
    (pod_tolerations : List Toleration) : Bool :=
  node_taints.all (fun taint =>
    if !(taint.effect == some "NoSchedule" || taint.effect == some "NoExecute")
    then true
    else pod_tolerations.any (fun tol =>
      let op := tol.operator.getD "Equal"
      (tol.key == none && op == "Exists")
      || (tol.key == taint.key
          && (op == "Exists" || tol.value == taint.value))))

/-- `simulate._check_node_selector`. -/
def sim_check_node_selector (node_labels : List (String × String))
    (pod_selector : List (String × String)) : Bool :=
  pod_selector.all (fun kv => alGet node_labels kv.1 == some kv.2)

/-- `check_capacity` inside `bin_pack_pods`. -/
def check_capacity (n : SimNode) (group : List PodView) : Bool :=
  let needed_cpu := (group.map (fun p => p.req_cpu_m)).sum
  let needed_mem := (group.map (fun p => p.req_mem_b)).sum
  let needed_cnt := group.length
  if (n.pod_count : Int) + needed_cnt > n.spec.max_pods then false
  else if n.used_cpu + needed_cpu > n.spec.alloc_cpu then false
  else if n.used_mem + needed_mem > n.spec.alloc_mem then false
  else true

/-- Python `max(xs, key=f)` (first maximal element). -/
def pyMaxBy {α : Type} (f : α → ℚ) (l : List α) : Option α :=
  l.foldl (fun best x =>
    match best with
    | none => some x
    | some b => if f x > f b then some x else some b) none

/-- Lexicographic tuple order of Python on `PodView.sort_key`. -/
def sortKeyLe (a b : Int × Int × String) : Bool :=
  if a.1 ≠ b.1 then a.1 < b.1
  else if a.2.1 ≠ b.2.1 then a.2.1 < b.2.1
  else a.2.2 ≤ b.2.2

/-- `bin_pack_pods`, first placement scan (the one whose result is later
discarded but whose mutations persist): add the main pod — and then the
sidecars — to the first node that fits the main pod; a sidecar that does not
fit reaches the rollback branch, which calls the non-existent
`SimNode.remove` and raises `AttributeError`. -/
def binPackLoopA (main : PodView) (sidecars : List PodView) :
    List SimNode → Except String (List SimNode)
  | [] => Except.ok []
  | n :: rest =>
    if n.can_fit main then
      (sidecars.foldlM (fun (acc : SimNode) sc =>
        if acc.can_fit sc then Except.ok (acc.add sc)
        else Except.error "AttributeError: SimNode object has no attribute remove")
        (n.add main)).map (fun n2 => n2 :: rest)
    else (binPackLoopA main sidecars rest).map (fun rest2 => n :: rest2)

/-- `bin_pack_pods`, dry-run placement scan: the first node with capacity for
the whole group on which every group member also passes `can_fit`. -/
def binPackLoopB (group : List PodView) :
    List SimNode → Option (List SimNode)
  | [] => none
  | n :: rest =>
    if check_capacity n group && group.all (fun p => n.can_fit p) then
      some ((group.foldl SimNode.add n) :: rest)
    else (binPackLoopB group rest).map (fun r => n :: r)

/-- `bin_pack_pods`, node synthesis: cheapest spec that fits the whole group,
else the spec with the largest memory; admitted DaemonSet templates are
added first, then the group (the source adds the group whether or not the
final capacity check passes). -/
def binPackCreate (sorted_instances allowed : List InstanceTypeSpec)
    (ds_templates : List PodView) (group : List PodView) (idx : Nat) : SimNode :=
  let req_cpu := (group.map (fun p => p.req_cpu_m)).sum
  let req_mem := (group.map (fun p => p.req_mem_b)).sum
  let req_cnt := group.length
  let best := (sorted_instances.find? (fun spec =>
      req_cpu ≤ spec.alloc_cpu && req_mem ≤ spec.alloc_mem
      && spec.max_pods ≥ (req_cnt : Int))).getD
    ((pyMaxBy (fun s => (s.alloc_mem : ℚ)) allowed).getD
      ⟨"", 0, 0, 0, 0, [], []⟩)
  let node0 : SimNode := ⟨"new-node-" ++ toString idx, best, "dynamic", false, [], []⟩
  let node1 := ds_templates.foldl (fun nd ds =>
    if sim_check_node_selector best.labels ds.node_selector
        && sim_check_taint_tolerations best.taints ds.tolerations then
      nd.add { ds with id := ds.name ++ "-sim-" ++ toString idx }
    else nd) node0
  group.foldl SimNode.add node1

/-- `simulate.bin_pack_pods` (the `time_factor` parameter of the source is
never read and is omitted). -/
def bin_pack_pods (pods_to_schedule : List (PodView × List PodView))
    (allowed_instances : List InstanceTypeSpec) (ds_templates : List PodView) :
    Except String (List SimNode) :=
  if pods_to_schedule.isEmpty then Except.ok []
  else if allowed_instances.isEmpty then Except.ok []
  else
    let sorted_instances := allowed_instances.mergeSort
      (fun a b => a.price_hourly ≤ b.price_hourly)
    let sorted_pods := pods_to_schedule.mergeSort
      (fun a b => sortKeyLe b.1.sort_key a.1.sort_key)
    sorted_pods.foldlM (fun new_nodes grp =>
      (binPackLoopA grp.1 grp.2 new_nodes).map (fun nnA =>
        match binPackLoopB (grp.1 :: grp.2) nnA with
        | some nnB => nnB
        | none => nnA ++ [binPackCreate sorted_instances allowed_instances
            ds_templates (grp.1 :: grp.2) nnA.length])) []

/-- The node fields `run_simulation` reads. -/
structure NodeView where
  name : String
  nodepool : String
  instance_type : String
  alloc_cpu_m : Int
  alloc_mem_b : Int
  alloc_pods : Int
  labels : List (String × String)
  taints : List Taint
  deriving DecidableEq, Repr

/-- The pod fields `run_simulation` reads, with its own normalizations
applied: `node` is truthiness-normalized (`if node_id:`), the usage fields
are `int(x or 0)`. -/
structure PodRead where
  id : String
  name : String
  «namespace» : String
  node : Option String
  owner_kind : Option String
  owner_name : Option String
  req_cpu_m : Int
  req_mem_b : Int
  is_daemonset : Bool
  is_system : Bool
  is_gfw : Bool
  tolerations : List Toleration
  node_selector : List (String × String)
  affinity : Affinity
  usage_cpu_m : Int
  usage_mem_b : Int
  active_ratio : ℚ
  deriving DecidableEq, Repr

/-- Everything of a snapshot that `run_simulation` consumes. -/
structure SimInput where
  nodesV : List NodeView
  podsV : List PodRead
  poolKeys : List String
  pricesV : List (String × ℚ)
  history : List HistoryEntry
  deriving DecidableEq, Repr

def nodeViewOf (n : Node) : NodeView :=
  ⟨n.name, n.nodepool, n.instance_type, n.alloc_cpu_m, n.alloc_mem_b,
   n.alloc_pods, n.labels, n.taints⟩

def podReadOf (p : Pod) : PodRead :=
  ⟨p.id, p.name, p.«namespace»,
   (if p.node.getD "" = "" then none else p.node),
   p.owner_kind, p.owner_name, p.req_cpu_m, p.req_mem_b,
   p.is_daemonset, p.is_system, p.is_gfw, p.tolerations, p.node_selector,
   p.affinity, p.usage_cpu_m.getD 0, p.usage_mem_b.getD 0,
   Pod.active_ratio p⟩

/-- The view `run_simulation` takes of a snapshot: node values, pod values,
nodepool keys (only the keys feed the pool set), hourly prices, history. -/
def viewOf (s : Snapshot) : SimInput :=
  ⟨(alValues s.nodes).map nodeViewOf, (alValues s.pods).map podReadOf,
   alKeys s.nodepools, s.prices.map (fun kv => (kv.1, kv.2.usd_per_hour)),
   s.history_usage⟩

/-- The `PodView` built for every pod at the start of `run_simulation`. -/
def podViewOf (p : PodRead) : PodView :=
  ⟨p.id, p.«namespace», p.name, p.owner_kind, p.owner_name, p.is_gfw,
   p.is_daemonset, p.is_system, p.req_cpu_m, p.req_mem_b, p.usage_cpu_m,
   p.usage_mem_b, PodRead.active_ratio p, p.affinity, p.node_selector,
   p.tolerations⟩

/-- Step 1 of `run_simulation`: the process-wide table overlaid with the
snapshot's own prices. -/
def localPrices (gp : List (String × ℚ)) (inp : SimInput) : List (String × ℚ) :=
  inp.pricesV.foldl (fun lp kv => alInsert lp kv.1 kv.2) gp

/-- `local_prices.get(inst, 0.0)`. -/
def priceLookup (lp : List (String × ℚ)) (inst : String) : ℚ :=
  (alGet lp inst).getD 0

/-- The `mount-s3` templates: last pod named `mount-s3*` per namespace. -/
def buildS3Templates (podsV : List PodRead) : List (String × PodRead) :=
  podsV.foldl (fun acc p =>
    if pyStartsWith p.name "mount-s3" then alInsert acc p.«namespace» p
    else acc) []

/-- Step 2: per-pool instance-type catalog (first node of each
`(pool, instance_type)` pair defines the spec). -/
def buildCatalog (lp : List (String × ℚ)) (nodesV : List NodeView) :
    List (String × List (String × InstanceTypeSpec)) :=
  nodesV.foldl (fun cat node =>
    let pool := node.nodepool
    let cat := if alHasKey cat pool then cat else alInsert cat pool []
    let inner := (alGet cat pool).getD []
    if alHasKey inner node.instance_type then cat
    else alInsert cat pool (alInsert inner node.instance_type
      ⟨node.instance_type, node.alloc_cpu_m, node.alloc_mem_b, node.alloc_pods,
       priceLookup lp node.instance_type, node.labels, node.taints⟩)) []

/-- The bound/pending split of the pod loop: `pods_by_node` and
`pending_pods_by_pool` (pending pods must carry the nodepool selector and
not be DaemonSets). -/
def splitPods (podsV : List PodRead) :
    List (String × List PodView) × List (String × List PodView) :=
  podsV.foldl (fun acc p =>
    let pv := podViewOf p
    match p.node with
    | some nid => (alInsert acc.1 nid ((alGet acc.1 nid).getD [] ++ [pv]), acc.2)
    | none =>
      match alGet p.node_selector "karpenter.sh/nodepool" with
      | some poolName =>
        if poolName ≠ "" && !pv.is_daemon then
          (acc.1, alInsert acc.2 poolName ((alGet acc.2 poolName).getD [] ++ [pv]))
        else acc
      | none => acc) ([], [])

/-- Step 3: one template `PodView` per distinct `(namespace, owner_name)`
DaemonSet. -/
def buildDsTemplates (podsV : List PodRead) : List PodView :=
  (podsV.foldl (fun (acc : List PodView × List (String × Option String)) p =>
    if p.is_daemonset && !(acc.2.contains (p.«namespace», p.owner_name)) then
      (acc.1 ++ [⟨"ds-" ++ p.name, p.«namespace», p.name, some "DaemonSet",
        p.owner_name, true, true, p.is_system, p.req_cpu_m, p.req_mem_b,
        0, 0, 1, Affinity.empty, p.node_selector, p.tolerations⟩],
       acc.2 ++ [(p.«namespace», p.owner_name)])
    else acc) ([], [])).1

/-- Step 4: one `SimNode` per node, its spec from the catalog (with the
defensive zero-spec fallback of the source). -/
def simNodesInit (lp : List (String × ℚ))
    (catalog : List (String × List (String × InstanceTypeSpec)))
    (nodesV : List NodeView) : List (String × SimNode) :=
  nodesV.foldl (fun sns node =>
    let spec := match alGet ((alGet catalog node.nodepool).getD []) node.instance_type with
      | some sp => sp
      | none => ⟨node.instance_type, 0, 0, 110,
          priceLookup lp node.instance_type, [], []⟩
    alInsert sns node.name ⟨node.name, spec, node.nodepool, true, [], []⟩) []

/-- Step 5: hydrate the bound pods onto their `SimNode`s. -/
def hydrateSimNodes (sim_nodes : List (String × SimNode))
    (pods_by_node : List (String × List PodView)) : List (String × SimNode) :=
  pods_by_node.foldl (fun sns kv =>
    match alGet sns kv.1 with
    | some n => alInsert sns kv.1 (kv.2.foldl SimNode.add n)
    | none => sns) sim_nodes

/-- The sidecar heuristic: a pending pod in a namespace holding a
`mount-s3*` pod gets a clone of that pod co-scheduled. -/
def mkSidecars (s3ts : List (String × PodRead)) (pv : PodView) : List PodView :=
  match alGet s3ts pv.«namespace» with
  | none => []
  | some tmpl =>
    [⟨"mount-s3-" ++ pv.id, tmpl.«namespace», "mount-s3-sim-" ++ pv.name,
      none, none, true, false, false, tmpl.req_cpu_m, tmpl.req_mem_b,
      0, 0, PodView.active_ratio pv, Affinity.empty, [], []⟩]

/-- Step 6b: first existing node of the pool that takes the whole group
(dry capacity check for the group, then `can_fit` for the main pod). -/
def placeOnExisting (sim_nodes : List (String × SimNode))
    (wl : PodView × List PodView) :
    List String → Option (List (String × SimNode))
  | [] => none
  | name :: rest =>
    match alGet sim_nodes name with
    | none => placeOnExisting sim_nodes wl rest
    | some n =>
      let req_cpu := wl.1.req_cpu_m + (wl.2.map (fun s => s.req_cpu_m)).sum
      let req_mem := wl.1.req_mem_b + (wl.2.map (fun s => s.req_mem_b)).sum
      let req_pods := 1 + wl.2.length
      if (n.pod_count : Int) + req_pods > n.spec.max_pods then
        placeOnExisting sim_nodes wl rest
      else if n.used_cpu + req_cpu > n.spec.alloc_cpu then
        placeOnExisting sim_nodes wl rest
      else if n.used_mem + req_mem > n.spec.alloc_mem then
        placeOnExisting sim_nodes wl rest
      else if ¬ n.can_fit wl.1 then
        placeOnExisting sim_nodes wl rest
      else some (alInsert sim_nodes name (wl.2.foldl SimNode.add (n.add wl.1)))

/-- Step 6d duty-cycle model: `max(active_ratio over workload pods)`,
default 1. -/
def maxActive (pods : List PodView) : ℚ :=
  match pods with
  | [] => 1
  | x :: xs => xs.foldl (fun m p => max m (PodView.active_ratio p))
      (PodView.active_ratio x)

/-- Effective hours: 24, capped `ratio·24 + 0.5` below the 0.98 cutoff. -/
def effectiveHours (maxRatio : ℚ) : ℚ :=
  if maxRatio < mkRat 49 50 then min 24 (maxRatio * 24 + mkRat 1 2) else 24

/-- The duty-cycle term a node adds to its pool's projected cost. -/
def nodeDutyCost (n : SimNode) : ℚ :=
  n.spec.price_hourly * effectiveHours (maxActive n.workload_pods)

/-- Any excess at all? (`cpu_ex > 0 or mem_ex > 0 or pod_ex > 0`). -/
def SimNode.hasOverflow (n : SimNode) : Bool :=
  let needs := n.get_overflow_needs
  needs.1 > 0 || needs.2.1 > 0 || needs.2.2 > 0

/-- What one existing node adds to the pool's projected cost: nothing when
empty; its duty cost, plus — when any overflow is detected — a flat
`price·24 + price·effective_hours` penalty. -/
def existingNodeContribution (n : SimNode) : ℚ :=
  if n.is_empty then 0
  else nodeDutyCost n +
    (if n.hasOverflow then n.spec.price_hourly * 24 + nodeDutyCost n else 0)

/-- Step 6 for one pool: place pending pods on existing nodes, bin-pack the
rest onto new nodes, then sum the pool's projected cost and node count. -/
def processPool (_lp : List (String × ℚ))
    (catalog : List (String × List (String × InstanceTypeSpec)))
    (s3ts : List (String × PodRead)) (dsTemplates : List PodView)
    (pending : List (String × List PodView))
    (state : List (String × SimNode) × List (String × PoolStats) × ℚ)
    (pool : String) :
    Except String (List (String × SimNode) × List (String × PoolStats) × ℚ) :=
  let sim_nodes0 := state.1
  let nodeNames := (sim_nodes0.filter (fun kv => kv.2.pool == pool)).map (·.1)
  let workloads := ((alGet pending pool).getD []).map
    (fun pv => (pv, mkSidecars s3ts pv))
  let placed := workloads.foldl
    (fun (acc : List (String × SimNode) × List (PodView × List PodView)) wl =>
      match placeOnExisting acc.1 wl nodeNames with
      | some sns => (sns, acc.2)
      | none => (acc.1, acc.2 ++ [wl])) (sim_nodes0, [])
  let sim_nodes1 := placed.1
  let remaining := placed.2
  let catalogList :=
    let cl := alValues ((alGet catalog pool).getD [])
    if cl.isEmpty then
      alValues (nodeNames.foldl (fun d name =>
        match alGet sim_nodes1 name with
        | some n => alInsert d n.spec.name n.spec
        | none => d) [])
    else cl
  (if remaining.isEmpty then Except.ok []
   else bin_pack_pods remaining catalogList dsTemplates).map (fun vnodes =>
    let fin1 := nodeNames.foldl (fun (acc : ℚ × Nat) name =>
      match alGet sim_nodes1 name with
      | none => acc
      | some n =>
        if n.is_empty then acc
        else (acc.1 + existingNodeContribution n, acc.2 + 1)) (0, 0)
    let fin2 := vnodes.enum.foldl
      (fun (acc : List (String × SimNode) × ℚ × Nat) iv =>
        let renamed :=
          { iv.2 with pool := pool, name := "new-" ++ pool ++ "-" ++ toString iv.1 }
        (alInsert acc.1 renamed.name renamed,
         acc.2.1 + nodeDutyCost renamed, acc.2.2 + 1)) (sim_nodes1, 0, 0)
    let pool_cost := fin1.1 + fin2.2.1
    (fin2.1, alInsert state.2.1 pool ⟨pool_cost, fin1.2 + fin2.2.2⟩,
     state.2.2 + pool_cost))

/-- Steps 1–8 of `run_simulation` over the snapshot view. -/
def runSimCore (gp : List (String × ℚ)) (inp : SimInput) :
    Except String SimulationResult :=
  let lp := localPrices gp inp
  let s3ts := buildS3Templates inp.podsV
  let catalog := buildCatalog lp inp.nodesV
  let split := splitPods inp.podsV
  let dsTemplates := buildDsTemplates inp.podsV
  let sim_nodes0 := simNodesInit lp catalog inp.nodesV
  let sim_nodes1 := hydrateSimNodes sim_nodes0 split.1
  let pools := dedupFirst ((alValues sim_nodes1).map (fun n => n.pool)
    ++ inp.poolKeys ++ alKeys split.2)
  (pools.foldlM (processPool lp catalog s3ts dsTemplates split.2)
    (sim_nodes1, [], 0)).map (fun fin =>
    let sim_nodes := fin.1
    let projected := fin.2.1
    let projected_total := fin.2.2
    let actual_counts := (alValues sim_nodes).foldl (fun c n =>
      if n.is_existing then alInsert c n.pool ((alGet c n.pool).getD 0 + 1)
      else c) ([] : List (String × Nat))
    let actual :=
      if inp.history.isEmpty then
        projected.map (fun kv =>
          (kv.1, (⟨(alValues sim_nodes).foldl (fun b n =>
              if n.pool == kv.1 && n.is_existing then
                b + n.spec.price_hourly * 24 else b) 0,
            (alValues sim_nodes).foldl (fun c n =>
              if n.pool == kv.1 && n.is_existing then c + 1 else c) 0⟩ : PoolStats)))
      else
        let temp := inp.history.foldl (fun t e =>
          alInsert t e.pool ((alGet t e.pool).getD 0
            + priceLookup lp e.«instance» * e.instance_hours_24h)) []
        temp.map (fun kv =>
          (kv.1, (⟨kv.2, (alGet actual_counts kv.1).getD 0⟩ : PoolStats)))
    { total_cost_daily_usd := (actual.map (fun kv => kv.2.cost)).sum,
      pool_stats := actual,
      projected_pool_stats := projected,
      projected_total_cost_usd := projected_total,
      total_cost_gfw_nodes_usd := 0,
      total_cost_keda_nodes_usd := 0 })

/-- `simulate.run_simulation`, as a function of the process-wide price table
and the snapshot. -/
def run_simulation (gp : List (String × ℚ)) (s : Snapshot) :
    Except String SimulationResult :=
  runSimCore gp (viewOf s)

/-! ## Concrete simulator scenarios -/

/-- Duty-cycle scenario (spec end-to-end scenario 3): two identical nodes,
each hosting one pod with `active_ratio = 0.5`. -/
def dutyNode (nm : String) : Node :=
  { id := nm, name := nm, nodepool := "p", instance_type := "r6a.large",
    alloc_cpu_m := 2000, alloc_mem_b := 17179869184 }

def dutyPod (nm onNode : String) : Pod :=
  { id := "ns/" ++ nm, name := nm, «namespace» := "ns", node := some onNode,
    owner_kind := some "ReplicaSet", owner_name := some "a-abc",
    req_cpu_m := 500, req_mem_b := 1073741824, active_ratio := mkRat 1 2 }

def dutySnapC2 : Snapshot :=
  { nodes := [("n1", dutyNode "n1"), ("n2", dutyNode "n2")],
    pods := [("ns/a1", dutyPod "a1" "n1"), ("ns/a2", dutyPod "a2" "n2")],
    nodepools := [("p", { name := "p" })], prices := [], schedules := [] }

def simResultC2 : SimulationResult :=
  (run_simulation defaultHourlyPrices dutySnapC2).toOption.getD
    ⟨0, [], [], 0, 0, 0⟩

/-- Overflow scenario: a `t3a.large` node with 1000 allocatable millicores
hosting one pod; the small variant exceeds CPU by 1, the big one by 4000. -/
def ovNode : Node :=
  { id := "on", name := "on", nodepool := "p", instance_type := "t3a.large",
    alloc_cpu_m := 1000, alloc_mem_b := 17179869184 }

def ovPod (req : Int) : Pod :=
  { id := "ns/ov", name := "ov", «namespace» := "ns", node := some "on",
    owner_kind := some "ReplicaSet", owner_name := some "ov-abc",
    req_cpu_m := req, req_mem_b := 1073741824 }

def ovSnap (req : Int) : Snapshot :=
  { nodes := [("on", ovNode)], pods := [("ns/ov", ovPod req)],
    nodepools := [("p", { name := "p" })],
    prices := [("t3a.large", { instance_type := "t3a.large", usd_per_hour := 1 })],
    schedules := [] }

def ovResultSmall : SimulationResult :=
  (run_simulation defaultHourlyPrices (ovSnap 1001)).toOption.getD ⟨0, [], [], 0, 0, 0⟩

def ovResultBig : SimulationResult :=
  (run_simulation defaultHourlyPrices (ovSnap 5000)).toOption.getD ⟨0, [], [], 0, 0, 0⟩

/-- The `SimNode` that `run_simulation` hydrates for the overflow node. -/
def ovSimNode (req : Int) : SimNode :=
  ⟨"on", ⟨"t3a.large", 1000, 17179869184, 110, 1, [], []⟩,
   "p", true, [podViewOf (podReadOf (ovPod req))], []⟩

/-- The quantity the claim says the simulator charges for: node-equivalents
covering the worst relative excess, rounded up. -/
def claimOverflowEquivalents (n : SimNode) : ℤ :=
  let needs := n.get_overflow_needs
  ⌈max (max ((needs.1 : ℚ) / (n.spec.alloc_cpu : ℚ))
      ((needs.2.1 : ℚ) / (n.spec.alloc_mem : ℚ)))
    ((needs.2.2 : ℚ) / (n.spec.max_pods : ℚ))⌉

/-! ## Snapshot persistence (`gfw_sim/snapshot/io.py` and
`gfw_sim/snapshot/from_legacy.py`) -/

/-- The JSON object `io.snapshot_to_dict` writes for one node. -/
structure NodeDict where
  name : String
  nodepool : String
  instance_type : String
  alloc_cpu_m : Int
  alloc_mem_b : Int
  alloc_pods : Int
  capacity_type : String
  labels : List (String × String)
  taints : List Taint
  is_virtual : Bool
  uptime_hours_24h : ℚ
  deriving DecidableEq, Repr

/-- The JSON object `io.snapshot_to_dict` writes for one pod; the usage
fields are already `int(x or 0)`-normalized by the serializer. -/
structure PodDict where
  name : String
  «namespace» : String
  node : Option String
  owner_kind : Option String
  owner_name : Option String
  req_cpu_m : Int
  req_mem_b : Int
  usage_cpu_m : Int
  usage_mem_b : Int
  is_daemon : Bool
  is_system : Bool
  is_gfw : Bool
  tolerations : List Toleration
  node_selector : List (String × String)
  affinity : Affinity
  active_ratio : ℚ
  deriving DecidableEq, Repr

/-- The JSON object `io.snapshot_to_dict` writes for one nodepool. -/
structure PoolDict where
  name : String
  labels : List (String × String)
  taints : List Taint
  is_keda : Bool
  consolidation_policy : String
  deriving DecidableEq, Repr

/-- The persisted snapshot format, as produced by `snapshot_to_dict` and
consumed by `snapshot_from_legacy_data` (which only ever sees
`prices_by_instance` on this path; `prices_default`/`prices_keda` are
never emitted by the serializer). -/
structure LegacyData where
  baseline_nodes : List (String × NodeDict)
  baseline_pods : List (String × PodDict)
  nodepools : List (String × PoolDict)
  prices_by_instance : List (String × ℚ)
  keda_pool : Option String
  history_usage : List HistoryEntry
  deriving DecidableEq, Repr

def nodeDictOf (n : Node) : NodeDict :=
  ⟨n.name, n.nodepool, n.instance_type, n.alloc_cpu_m, n.alloc_mem_b,
   n.alloc_pods, n.capacity_type, n.labels, n.taints, n.is_virtual,
   n.uptime_hours_24h⟩

def podDictOf (p : Pod) : PodDict :=
  ⟨p.name, p.«namespace», p.node, p.owner_kind, p.owner_name,
   p.req_cpu_m, p.req_mem_b, p.usage_cpu_m.getD 0, p.usage_mem_b.getD 0,
   p.is_daemonset, p.is_system, p.is_gfw, p.tolerations, p.node_selector,
   p.affinity, Pod.active_ratio p⟩

def poolDictOf (np : NodePool) : PoolDict :=
  ⟨np.name, np.labels, np.taints, np.is_keda, np.consolidation_policy⟩

/-- `io.snapshot_to_dict`: nodes are re-keyed by `n.name`, pods by `p.id`,
nodepools by `np.name`, prices map to their hourly rate. -/
def snapshot_to_dict (s : Snapshot) : LegacyData :=
  ⟨(alValues s.nodes).foldl (fun d n => alInsert d n.name (nodeDictOf n)) [],
   (alValues s.pods).foldl (fun d p => alInsert d p.id (podDictOf p)) [],
   (alValues s.nodepools).foldl
     (fun d np => alInsert d np.name (poolDictOf np)) [],
   s.prices.foldl (fun d kv => alInsert d kv.1 kv.2.usd_per_hour) [],
   s.keda_pool_name, s.history_usage⟩

/-- `from_legacy.SYSTEM_NAMESPACES`. -/
def SYSTEM_NAMESPACES : List String :=
  ["default", "vector", "victoria-metrics", "oomkill-exporter",
   "kube-system", "mount-s3"]

/-- `from_legacy._merge_price_sources` on serializer output: an empty
`prices_by_instance` dict is falsy, and the fallback keys are absent. -/
def merge_price_sources (d : LegacyData) : List (String × InstancePrice) :=
  if d.prices_by_instance.isEmpty then []
  else d.prices_by_instance.foldl (fun r kv =>
    alInsert r kv.1 ⟨kv.1, kv.2, "on_demand", "prices_by_instance"⟩) []

/-- `n.get("nodepool", "default") or "default"`. -/
def poolStrOf (nd : NodeDict) : String :=
  if nd.nodepool = "" then "default" else nd.nodepool

/-- The loader's keda detection: explicit `keda_pool` match, else the
substring heuristic on the lower-cased pool name. -/
def loaderIsKeda (keda_pool : Option String) (pool : String) : Bool :=
  (keda_pool.getD "" ≠ "" && pool == keda_pool.getD "")
  || decide ("keda".toList <:+: pool.toLower.toList)

/-- The `NodePool` the loader synthesizes from the first node it sees in a
pool: empty labels, the node's own taints, keda detection. -/
def legacyPoolOf (keda_pool : Option String) (nd : NodeDict) : NodePool :=
  ⟨poolStrOf nd, [], nd.taints, loaderIsKeda keda_pool (poolStrOf nd),
   if loaderIsKeda keda_pool (poolStrOf nd) then "keda-weekdays-12h"
   else "default", "WhenUnderutilized"⟩

def legacyNodepools (d : LegacyData) : List (String × NodePool) :=
  d.baseline_nodes.foldl (fun nps kv =>
    if alHasKey nps (poolStrOf kv.2) then nps
    else alInsert nps (poolStrOf kv.2) (legacyPoolOf d.keda_pool kv.2)) []

/-- The `Node` the loader rebuilds: `id = name =` the dict key,
`capacity_type` forced to `on_demand`, `is_virtual` to false, and
`alloc_pods`/`uptime_hours_24h` back to their dataclass defaults. -/
def legacyNodeOf (key : String) (nd : NodeDict) : Node :=
  ⟨key, key, poolStrOf nd, nd.instance_type, nd.alloc_cpu_m,
   nd.alloc_mem_b, 110, "on_demand", nd.labels, nd.taints, false, 24⟩

def legacyNodes (d : LegacyData) : List (String × Node) :=
  d.baseline_nodes.foldl
    (fun ns kv => alInsert ns kv.1 (legacyNodeOf kv.1 kv.2)) []

/-- The `Pod` the loader rebuilds: limits dropped, `is_system` recomputed
from `SYSTEM_NAMESPACES`, `active_ratio` back to 1.0, `node` truthiness
normalized, usage fields wrapped back into options. -/
def legacyPodOf (key : String) (p : PodDict) : Pod :=
  ⟨key, p.name, p.«namespace»,
   (if p.node.getD "" = "" then none else p.node),
   p.owner_kind, p.owner_name, p.req_cpu_m, p.req_mem_b, none, none,
   p.is_daemon, SYSTEM_NAMESPACES.contains p.«namespace», p.is_gfw,
   (if p.tolerations.isEmpty then [] else p.tolerations),
   (if p.node_selector.isEmpty then [] else p.node_selector),
   (if p.affinity = Affinity.empty then Affinity.empty else p.affinity),
   some p.usage_cpu_m, some p.usage_mem_b, 1⟩

def legacyPods (d : LegacyData) : List (String × Pod) :=
  d.baseline_pods.foldl
    (fun ps kv => alInsert ps kv.1 (legacyPodOf kv.1 kv.2)) []

/-- `from_legacy.snapshot_from_legacy_data` (the serialized `nodepools`
dict is ignored; schedules are hard-coded; `history_usage` is never
read back). -/
def snapshot_from_legacy_data (d : LegacyData) : Snapshot :=
  { nodes := legacyNodes d, pods := legacyPods d,
    nodepools := legacyNodepools d,
    prices := merge_price_sources d,
    schedules := [("default", ⟨"default", 24, 7⟩),
      ("keda-weekdays-12h", ⟨"keda-weekdays-12h", 12, 5⟩)],
    keda_pool_name :=
      (if d.keda_pool.getD "" = "" then none else d.keda_pool),
    history_usage := [] }

/-- Serialize to the persisted format and load back
(`snapshot_to_dict` then `snapshot_from_legacy_data`, i.e. the pure part
of `save_snapshot_to_file` then `load_snapshot_from_file`). -/
def roundTrip (s : Snapshot) : Snapshot :=
  snapshot_from_legacy_data (snapshot_to_dict s)

/-! ## Concrete round-trip scenario -/

/-- A workload pod that is active half the day. -/
def c8Pod : Pod :=
  { id := "ns/w", name := "w", «namespace» := "ns", node := some "cn",
    owner_kind := some "ReplicaSet", owner_name := some "w-abc",
    req_cpu_m := 500, req_mem_b := 1073741824, active_ratio := mkRat 1 2 }

def c8Node : Node :=
  { id := "cn", name := "cn", nodepool := "p", instance_type := "t3a.large",
    alloc_cpu_m := 2000, alloc_mem_b := 17179869184 }

def c8Snap : Snapshot :=
  { nodes := [("cn", c8Node)], pods := [("ns/w", c8Pod)],
    nodepools := [("p", { name := "p" })],
    prices := [("t3a.large",
      { instance_type := "t3a.large", usd_per_hour := 1 })],
    schedules := [] }

def c8SimDirect : SimulationResult :=
  (run_simulation defaultHourlyPrices c8Snap).toOption.getD ⟨0, [], [], 0, 0, 0⟩

def c8SimLoaded : SimulationResult :=
  (run_simulation defaultHourlyPrices (roundTrip c8Snap)).toOption.getD
    ⟨0, [], [], 0, 0, 0⟩

/-! ## Claim C9: taint/toleration coverage -/

/-- The coverage relation as the spec words it: a toleration with null key is
valid only with operator `Exists` and then matches any taint key; with a
matching key, `Exists` matches any value while `Equal` (the default) requires
equality of the values (rendered as strings, `null` rendering as the empty
string); an empty toleration effect matches any taint effect while a set
effect must equal the taint's. -/
def claimCovers (tol : Toleration) (key value : Option String) (effect : String) : Prop :=
  (tol.effect.getD "" = "" ∨ tol.effect.getD "" = effect)
  ∧ ((tol.key = none ∧ tol.operator.getD "Equal" = "Exists")
     ∨ (tol.key ≠ none ∧ tol.key = key
        ∧ (tol.operator.getD "Equal" = "Exists"
           ∨ (tol.operator.getD "Equal" = "Equal"
              ∧ strOfOpt tol.value = strOfOpt value))))

/-- A toleration whose operator field is absent or one of the two Kubernetes
operators (the code also case-normalizes exotic spellings, which the spec does
not contemplate). -/
def wfToleration (tol : Toleration) : Prop :=
  tol.operator = none ∨ tol.operator = some "Equal" ∨ tol.operator = some "Exists"

theorem matches_iff_covers (key value : Option String) (e : String)
    (he : e = "NoSchedule" ∨ e = "NoExecute") (tol : Toleration)
    (hwf : wfToleration tol) :
    tolerationMatchesTaint key value (some e) tol = true ↔ claimCovers tol key value e := by
  have hne : e ≠ "" := by rcases he with h | h <;> simp [h]
  have hcapEq : pyCapitalize "Equal" = "Equal" := by decide
  have hcapEx : pyCapitalize "Exists" = "Exists" := by decide
  rcases hwf with h | h | h <;>
    cases htk : tol.key <;>
    by_cases hte : tol.effect.getD "" = "" <;>
    by_cases hteq : tol.effect.getD "" = e <;>
    simp_all [tolerationMatchesTaint, claimCovers, hcapEq, hcapEx, strOfOpt]

/-- C9: for every pod and node, the constraint evaluator reports a taint
violation for a node taint with effect `NoSchedule` or `NoExecute` iff no
toleration of the pod covers it, with coverage exactly as the spec describes
it (`claimCovers`). -/
theorem taint_violation_iff_no_cover (key value : Option String) (e : String)
    (tols : List Toleration)
    (he : e = "NoSchedule" ∨ e = "NoExecute")
    (hwf : ∀ tol ∈ tols, wfToleration tol) :
    (taint_tolerated key value (some e) tols = false
      ↔ ¬ ∃ tol ∈ tols, claimCovers tol key value e)
    ∧ (check_taints_and_tolerations [⟨key, value, some e⟩] tols ≠ []
      ↔ ¬ ∃ tol ∈ tols, claimCovers tol key value e) := by
  have hne : e ≠ "" := by rcases he with h | h <;> simp [h]
  have hany : taint_tolerated key value (some e) tols = true
      ↔ ∃ tol ∈ tols, claimCovers tol key value e := by
    rw [taint_tolerated, List.any_eq_true]
    constructor
    · rintro ⟨tol, hmem, hm⟩
      exact ⟨tol, hmem, (matches_iff_covers key value e he tol (hwf tol hmem)).mp hm⟩
    · rintro ⟨tol, hmem, hc⟩
      exact ⟨tol, hmem, (matches_iff_covers key value e he tol (hwf tol hmem)).mpr hc⟩
  constructor
  · rw [← hany]
    simp [Bool.eq_false_iff, ← Bool.not_eq_true]
  · rcases he with h | h <;> subst h <;>
      by_cases ht : taint_tolerated key value (some "NoSchedule") tols = true <;>
      by_cases ht2 : taint_tolerated key value (some "NoExecute") tols = true <;>
      simp_all [check_taints_and_tolerations, ← hany]

/-- Witness for C9 at the spec's running example: taint `spot:NoSchedule`,
one toleration `{key: spot, operator: Exists}`. -/
theorem taint_violation_iff_no_cover_witness :
    (("NoSchedule" = "NoSchedule" ∨ "NoSchedule" = "NoExecute")
      ∧ ∀ tol ∈ ([⟨some "spot", some "Exists", none, none⟩] : List Toleration),
          wfToleration tol)
    ∧ ((taint_tolerated (some "spot") none (some "NoSchedule")
          [⟨some "spot", some "Exists", none, none⟩] = false
        ↔ ¬ ∃ tol ∈ ([⟨some "spot", some "Exists", none, none⟩] : List Toleration),
            claimCovers tol (some "spot") none "NoSchedule")
      ∧ (check_taints_and_tolerations [⟨some "spot", none, some "NoSchedule"⟩]
          [⟨some "spot", some "Exists", none, none⟩] ≠ []
        ↔ ¬ ∃ tol ∈ ([⟨some "spot", some "Exists", none, none⟩] : List Toleration),
            claimCovers tol (some "spot") none "NoSchedule")) :=
  ⟨⟨Or.inl rfl, by simp [wfToleration]⟩,
   taint_violation_iff_no_cover (some "spot") none "NoSchedule"
     [⟨some "spot", some "Exists", none, none⟩] (Or.inl rfl)
     (by simp [wfToleration])⟩

/-! ## Claim C1: the GC pass versus non-DaemonSet system pods -/

/-- C1 evidence: on a snapshot whose single node hosts exactly one
non-DaemonSet system pod, a mutation (here `delete_pods` with an empty id
list) followed by the operations-level GC pass removes the node and the
system pod — although the spec states twice that a non-DaemonSet system pod
keeps a node alive, and although the server's own end-of-mutate prune
(`_prune_nodes_only_daemonsets`) does keep that node. -/
theorem gc_drops_node_with_only_system_pod :
    (delete_pods sysOnlySnap []).nodes = [] ∧
    (delete_pods sysOnlySnap []).pods = [] ∧
    sysPod.is_system = true ∧ sysPod.is_daemonset = false ∧
    (prune_nodes_only_daemonsets sysOnlySnap).nodes = [("n1", sysNode)] ∧
    (prune_nodes_only_daemonsets sysOnlySnap).pods =
      [("metrics/collector-0", sysPod)] := by decide

/-! ## Claim C4: mutation operations versus the input snapshot -/

/-- C4 counterexample: `delete_pods` pops pods from the input snapshot's own
containers, so after the call the caller's snapshot is NOT unchanged — here
deleting the only pod leaves the input with no pods and (after GC) no
nodes. -/
theorem delete_pods_mutates_input :
    (delete_pods_op sysOnlySnap ["metrics/collector-0"]).inputAfter ≠ sysOnlySnap := by
  decide

/-! ## Helper lemmas on association lists and Python-style folds -/

theorem alGet_map_keyfun {α β : Type} (f : String → α → β)
    (l : List (String × α)) (k : String) :
    alGet (l.map (fun kv => (kv.1, f kv.1 kv.2))) k = (alGet l k).map (f k) := by
  induction l with
  | nil => simp [alGet]
  | cons x xs ih =>
    by_cases hx : x.1 = k
    · subst hx; simp [alGet]
    · simp [alGet, hx, ih]

theorem alGet_append {α : Type} (l1 l2 : List (String × α)) (k : String) :
    alGet (l1 ++ l2) k =
      (match alGet l1 k with
       | some v => some v
       | none => alGet l2 k) := by
  induction l1 with
  | nil => simp [alGet]
  | cons x xs ih =>
    by_cases hx : x.1 = k
    · simp [alGet, hx]
    · simp [alGet, hx, ih]

theorem alGet_mapReplace {α : Type} (k : String) (v : α)
    (l : List (String × α)) (k2 : String) :
    alGet (l.map (fun kv => if kv.1 = k then (k, v) else kv)) k2 =
      if k2 = k then (alGet l k).map (fun _ => v) else alGet l k2 := by
  induction l with
  | nil => by_cases h : k2 = k <;> simp [alGet, h]
  | cons x xs ih =>
    by_cases hx : x.1 = k <;> by_cases h2 : k2 = k
    · simp [alGet, hx, h2, ih]
    · have : ¬ (k = k2) := fun hc => h2 hc.symm
      simp [alGet, hx, h2, ih, this]
    · have hx2 : ¬ (x.1 = k2) := by rw [h2]; exact hx
      subst h2
      simp [alGet, hx, hx2, ih]
    · by_cases hx2 : x.1 = k2 <;> simp [alGet, hx, h2, hx2, ih]

theorem alGet_eq_none_of_not_any {α : Type} (l : List (String × α)) (k : String)
    (h : ¬ l.any (fun kv => kv.1 = k) = true) : alGet l k = none := by
  induction l with
  | nil => simp [alGet]
  | cons x xs ih =>
    simp only [List.any_cons, Bool.or_eq_true, decide_eq_true_eq, not_or] at h
    simp [alGet, h.1, ih (by simpa using h.2)]

theorem alGet_isSome_of_any {α : Type} (l : List (String × α)) (k : String)
    (h : l.any (fun kv => kv.1 = k) = true) : (alGet l k).isSome := by
  induction l with
  | nil => simp at h
  | cons x xs ih =>
    by_cases hx : x.1 = k
    · simp [alGet, hx]
    · rw [List.any_cons] at h
      simp only [hx, decide_False, Bool.false_or] at h
      simp [alGet, hx, ih h]

theorem alGet_alInsert_self {α : Type} (l : List (String × α)) (k : String) (v : α) :
    alGet (alInsert l k v) k = some v := by
  rw [alInsert]
  by_cases h : l.any (fun kv => kv.1 = k)
  · rw [if_pos h, alGet_mapReplace, if_pos rfl]
    have := alGet_isSome_of_any l k h
    cases hg : alGet l k with
    | none => rw [hg] at this; simp at this
    | some y => simp
  · rw [if_neg h, alGet_append, alGet_eq_none_of_not_any l k h]
    simp [alGet]

theorem alGet_alInsert_ne {α : Type} (l : List (String × α)) (k k2 : String) (v : α)
    (hne : k2 ≠ k) : alGet (alInsert l k v) k2 = alGet l k2 := by
  rw [alInsert]
  by_cases h : l.any (fun kv => kv.1 = k)
  · rw [if_pos h, alGet_mapReplace, if_neg hne]
  · rw [if_neg h, alGet_append]
    cases hg : alGet l k2 with
    | none =>
      have : ¬ (k = k2) := fun hc => hne hc.symm
      simp [alGet, this]
    | some y => simp




theorem pyMinBy_isSome_of_some {α : Type} (f : α → ℚ) :
    ∀ (l : List α) (x : α),
    (l.foldl (fun best y =>
      match best with
      | none => some y
      | some b => if f y < f b then some y else some b) (some x)).isSome := by
  intro l
  induction l with
  | nil => intro x; simp
  | cons y ys ih =>
    intro x
    simp only [List.foldl_cons]
    by_cases hlt : f y < f x <;> simp [hlt, ih]

theorem pyMinBy_eq_none_iff {α : Type} (f : α → ℚ) (l : List α) :
    pyMinBy f l = none ↔ l = [] := by
  cases l with
  | nil => simp [pyMinBy]
  | cons x xs =>
    simp only [pyMinBy, List.foldl_cons]
    constructor
    · intro h
      have := pyMinBy_isSome_of_some f xs x
      rw [h] at this
      simp at this
    · intro h
      simp at h

theorem pyMinBy_fold_spec {α : Type} (f : α → ℚ) :
    ∀ (l : List α) (acc : Option α) (x : α),
    l.foldl (fun best y =>
      match best with
      | none => some y
      | some b => if f y < f b then some y else some b) acc = some x →
    (x ∈ l ∨ acc = some x) ∧
    (∀ y ∈ l, f x ≤ f y) ∧ (∀ a, acc = some a → f x ≤ f a) := by
  intro l
  induction l with
  | nil =>
    intro acc x h
    simp at h
    exact ⟨Or.inr h, by simp, fun a ha => by rw [ha] at h; injection h with h1; rw [h1]⟩
  | cons y ys ih =>
    intro acc x h
    simp only [List.foldl_cons] at h
    have hstep : ∀ z, (match acc with
        | none => some y
        | some b => if f y < f b then some y else some b) = some z →
        (z = y ∨ acc = some z) ∧ f z ≤ f y ∧ (∀ a, acc = some a → f z ≤ f a) := by
      intro z hz
      match acc with
      | none =>
        simp at hz
        exact ⟨Or.inl hz.symm, le_of_eq (by rw [hz]), by simp⟩
      | some b =>
        simp only at hz
        by_cases hlt : f y < f b
        · rw [if_pos hlt] at hz
          injection hz with h1
          exact ⟨Or.inl h1.symm, le_of_eq (by rw [h1]),
            fun a ha => by injection ha with h2; rw [← h2, ← h1]; exact le_of_lt hlt⟩
        · rw [if_neg hlt] at hz
          exact ⟨Or.inr hz, by injection hz with h1; rw [← h1]; exact not_lt.mp hlt,
            fun a ha => by rw [ha] at hz; injection hz with h1; rw [h1]⟩
    have hsome : (match acc with
        | none => some y
        | some b => if f y < f b then some y else some b).isSome := by
      match acc with
      | none => simp
      | some b => by_cases hlt : f y < f b <;> simp [hlt]
    rcases ih _ x h with ⟨hsrc, hmin, hacc⟩
    have hxley : f x ≤ f y := by
      cases hs : (match acc with
          | none => some y
          | some b => if f y < f b then some y else some b) with
      | none => rw [hs] at hsome; simp at hsome
      | some w => exact le_trans (hacc w hs) (hstep w hs).2.1
    refine ⟨?_, ?_, ?_⟩
    · rcases hsrc with hm | heq
      · exact Or.inl (List.mem_cons_of_mem _ hm)
      · rcases (hstep x heq).1 with hxy | hacc3
        · exact Or.inl (by rw [hxy]; exact List.mem_cons_self _ _)
        · exact Or.inr hacc3
    · intro z hz
      rcases List.mem_cons.mp hz with hz1 | hz2
      · rw [hz1]; exact hxley
      · exact hmin z hz2
    · intro a ha
      cases hs : (match acc with
          | none => some y
          | some b => if f y < f b then some y else some b) with
      | none => rw [hs] at hsome; simp at hsome
      | some w => exact le_trans (hacc w hs) ((hstep w hs).2.2 a ha)

theorem pyMinBy_spec {α : Type} (f : α → ℚ) (l : List α) (x : α)
    (h : pyMinBy f l = some x) : x ∈ l ∧ ∀ y ∈ l, f x ≤ f y := by
  rcases pyMinBy_fold_spec f l none x h with ⟨hsrc, hmin, _⟩
  rcases hsrc with hm | habs
  · exact ⟨hm, hmin⟩
  · simp at habs

theorem select_fold_spec (targetPool : String) (p : Pod)
    (usage : List (String × NodeUsage)) :
    ∀ (l : List (String × Node)) (acc : Option (String × ℚ)),
    (l.foldl (selectStep targetPool p usage) acc = none ↔
      (acc = none ∧ ∀ kv ∈ l, ¬ isPackCandidate targetPool p usage kv)) ∧
    (∀ bid sc, l.foldl (selectStep targetPool p usage) acc = some (bid, sc) →
      ((∃ kv ∈ l, isPackCandidate targetPool p usage kv ∧ kv.1 = bid ∧
          sc = candScore p usage kv) ∨ acc = some (bid, sc)) ∧
      (∀ kv ∈ l, isPackCandidate targetPool p usage kv →
        sc ≤ candScore p usage kv) ∧
      (∀ b0 s0, acc = some (b0, s0) → sc ≤ s0)) := by
  intro l
  induction l with
  | nil =>
    intro acc
    constructor
    · simp
    · intro bid sc h
      simp at h
      exact ⟨Or.inr h, by simp, fun b0 s0 h0 => by rw [h0] at h; injection h with h1; injection h1 with _ h2; exact le_of_eq h2.symm⟩
  | cons kv rest ih =>
    intro acc
    by_cases hcand : isPackCandidate targetPool p usage kv
    · -- the step takes the candidate branch
      have hstep : selectStep targetPool p usage acc kv =
          (match acc with
           | none => some (kv.1, candScore p usage kv)
           | some (bid, bscore) =>
             if candScore p usage kv < bscore then some (kv.1, candScore p usage kv)
             else some (bid, bscore)) := by
        rcases hcand with ⟨h1, h2⟩
        simp [selectStep, h1, h2, candScore]
      have hstep_some : ∀ bid1 sc1, selectStep targetPool p usage acc kv = some (bid1, sc1) →
          ((bid1 = kv.1 ∧ sc1 = candScore p usage kv) ∨ acc = some (bid1, sc1)) ∧
          sc1 ≤ candScore p usage kv ∧
          (∀ b0 s0, acc = some (b0, s0) → sc1 ≤ s0) := by
        intro bid1 sc1 h
        rw [hstep] at h
        match acc with
        | none =>
          simp at h
          exact ⟨Or.inl ⟨h.1.symm, h.2.symm⟩, le_of_eq h.2.symm, by simp⟩
        | some (b0, s0) =>
          simp only at h
          by_cases hlt : candScore p usage kv < s0
          · rw [if_pos hlt] at h
            injection h with h1
            injection h1 with ha hb
            exact ⟨Or.inl ⟨ha.symm, hb.symm⟩, le_of_eq hb.symm,
              fun b0' s0' h0 => by
                injection h0 with h2; injection h2 with _ h3; subst h3
                rw [← hb]; exact le_of_lt hlt⟩
          · rw [if_neg hlt] at h
            exact ⟨Or.inr h, by
                injection h with h1; injection h1 with _ hb; rw [← hb]
                exact not_lt.mp hlt,
              fun b0' s0' h0 => by
                rw [h0] at h; injection h with h1; injection h1 with _ hb
                exact le_of_eq hb.symm⟩
      have hstep_isSome : (selectStep targetPool p usage acc kv).isSome := by
        rw [hstep]
        match acc with
        | none => simp
        | some (b0, s0) => by_cases hlt : candScore p usage kv < s0 <;> simp [hlt]
      constructor
      · -- fold = none is impossible here
        rw [List.foldl_cons]
        rcases (ih (selectStep targetPool p usage acc kv)).1 with ⟨hmp, _⟩
        constructor
        · intro h
          rcases hmp h with ⟨hnone, _⟩
          rw [hnone] at hstep_isSome
          simp at hstep_isSome
        · intro ⟨_, hall⟩
          exact absurd hcand (hall kv (by simp))
      · intro bid sc h
        rw [List.foldl_cons] at h
        rcases (ih (selectStep targetPool p usage acc kv)).2 bid sc h with ⟨hsrc, hmin, hacc⟩
        have hacc1 : ∀ bid1 sc1, selectStep targetPool p usage acc kv = some (bid1, sc1) → sc ≤ sc1 := hacc
        refine ⟨?_, ?_, ?_⟩
        · rcases hsrc with ⟨kv2, hm, hc, hb, hs⟩ | heq
          · exact Or.inl ⟨kv2, List.mem_cons_of_mem _ hm, hc, hb, hs⟩
          · rcases hstep_some bid sc heq with ⟨hsrc2, _, _⟩
            rcases hsrc2 with ⟨hb, hs⟩ | hacc0
            · exact Or.inl ⟨kv, List.mem_cons_self _ _, hcand, hb.symm, hs⟩
            · exact Or.inr hacc0
        · intro kv2 hm hc
          rcases List.mem_cons.mp hm with heq | hm2
          · rw [heq]
            -- sc ≤ score of the head candidate
            cases hsel : selectStep targetPool p usage acc kv with
            | none => rw [hsel] at hstep_isSome; simp at hstep_isSome
            | some v =>
              rcases v with ⟨bid1, sc1⟩
              have h1 := hacc1 bid1 sc1 hsel
              have h2 := (hstep_some bid1 sc1 hsel).2.1
              exact le_trans h1 h2
          · exact hmin kv2 hm2 hc
        · intro b0 s0 h0
          cases hsel : selectStep targetPool p usage acc kv with
          | none => rw [hsel] at hstep_isSome; simp at hstep_isSome
          | some v =>
            rcases v with ⟨bid1, sc1⟩
            have h1 := hacc1 bid1 sc1 hsel
            have h2 := (hstep_some bid1 sc1 hsel).2.2 b0 s0 h0
            exact le_trans h1 h2
    · -- not a candidate: the step is the identity
      have hstep : selectStep targetPool p usage acc kv = acc := by
        rw [isPackCandidate, not_and_or] at hcand
        rcases hcand with h | h
        · simp [selectStep, h]
        · by_cases hp : kv.2.nodepool = targetPool
          · simp [selectStep, hp, h]
          · simp [selectStep, hp]
      rw [List.foldl_cons, hstep]
      rcases ih acc with ⟨ih1, ih2⟩
      constructor
      · rw [ih1]
        constructor
        · intro ⟨ha, hall⟩
          refine ⟨ha, ?_⟩
          intro kv2 hm
          rcases List.mem_cons.mp hm with heq | hm2
          · subst heq; exact hcand
          · exact hall kv2 hm2
        · intro ⟨ha, hall⟩
          exact ⟨ha, fun kv2 hm2 => hall kv2 (List.mem_cons_of_mem _ hm2)⟩
      · intro bid sc h
        rcases ih2 bid sc h with ⟨hsrc, hmin, hacc⟩
        refine ⟨?_, ?_, hacc⟩
        · rcases hsrc with ⟨kv2, hm, rest⟩ | heq
          · exact Or.inl ⟨kv2, List.mem_cons_of_mem _ hm, rest⟩
          · exact Or.inr heq
        · intro kv2 hm hc
          rcases List.mem_cons.mp hm with heq | hm2
          · subst heq; exact absurd hc hcand
          · exact hmin kv2 hm2 hc

/-! ## Packer theorems (claims C3, C4, C5) -/

/-- C3 counterexample: on `packSnapC3` the operation-level packer places the
second anti-affine replica on the same node as the first (anti-affinity is
never consulted), and the virtual node it synthesizes for the oversized pod
has `alloc_pods = 110` instead of the template's 50 — contradicting the
claim that candidates must not violate anti-affinity and that `alloc_*` is
copied from the template. -/
theorem packer_ignores_anti_affinity_and_alloc_pods :
    (move_pods_to_pool defaultHourlyPrices packSnapC3
      ["ns/web-1", "ns/web-2", "ns/big"] "B").isOk = true
    ∧ (alGet moveResultC3.pods "ns/web-1").map (·.node) = some (some "bn")
    ∧ (alGet moveResultC3.pods "ns/web-2").map (·.node) = some (some "bn")
    ∧ podWeb2.affinity.podAntiRequired = [⟨some "kubernetes.io/hostname"⟩]
    ∧ podWeb2.«namespace» = podWeb1.«namespace»
    ∧ ((podWeb2.owner_name.getD "").toList.take 15).isPrefixOf
        (podWeb1.owner_name.getD "").toList = true
    ∧ (alGet moveResultC3.nodes "bn-virt-1").map (·.alloc_pods) = some 110
    ∧ (alGet moveResultC3.nodes "bn-virt-1").map (·.is_virtual) = some true
    ∧ packNodeB.alloc_pods = 50 := by decide

/-- C5 counterexample: on `frameSnapC5` the moved pod comes back with
`active_ratio = 1` (was 1/2) and `usage_* = none` (were set), and the
pre-existing node comes back with `alloc_pods = 110` (was 50) and
`uptime_hours_24h = 24` (was 10) — contradicting the claim that every pod
field other than `node`, and every node field, is preserved. -/
theorem move_resets_usage_ratio_and_node_fields :
    podApp1.active_ratio = 1/2 ∧ podApp1.usage_cpu_m = some 120
    ∧ packNodeB.alloc_pods = 50 ∧ packNodeB.uptime_hours_24h = 10
    ∧ (alGet moveResultC5.pods "ns/app-1").map (fun p => p.active_ratio) = some 1
    ∧ (alGet moveResultC5.pods "ns/app-1").map (·.usage_cpu_m) = some none
    ∧ (alGet moveResultC5.pods "ns/app-1").map (·.usage_mem_b) = some none
    ∧ (alGet moveResultC5.nodes "bn").map (·.alloc_pods) = some 110
    ∧ (alGet moveResultC5.nodes "bn").map (·.uptime_hours_24h) = some 24 :=
  ⟨rfl, rfl, rfl, rfl, rfl, rfl, rfl, rfl, rfl⟩

theorem choose_template_eq_none_iff (gp : List (String × ℚ)) (s : Snapshot)
    (pool : String) :
    choose_template_for_pool gp s pool = none ↔
      ∀ n ∈ alValues s.nodes, n.nodepool ≠ pool := by
  rw [choose_template_for_pool, pyMinBy_eq_none_iff, List.filter_eq_nil_iff]
  simp

theorem choose_template_spec (gp : List (String × ℚ)) (s : Snapshot)
    (pool : String) (t : Node) (h : choose_template_for_pool gp s pool = some t) :
    (t ∈ alValues s.nodes ∧ t.nodepool = pool)
    ∧ ∀ n ∈ alValues s.nodes, n.nodepool = pool →
        node_daily_cost gp t ≤ node_daily_cost gp n := by
  rcases pyMinBy_spec (node_daily_cost gp) _ t h with ⟨hm, hmin⟩
  rw [List.mem_filter] at hm
  refine ⟨⟨hm.1, by simpa using hm.2⟩, ?_⟩
  intro n hmem hp
  exact hmin n (List.mem_filter.mpr ⟨hmem, by simpa using hp⟩)


theorem alInsert_append_left_fresh {α : Type} (l1 l2 : List (String × α))
    (k : String) (v : α) (h : ∀ kv ∈ l1, kv.1 ≠ k) :
    alInsert (l1 ++ l2) k v = l1 ++ alInsert l2 k v := by
  have h1 : l1.any (fun kv => kv.1 = k) = false := by
    rw [List.any_eq_false]
    intro kv hm
    simpa using h kv hm
  have hmap : l1.map (fun kv => if kv.1 = k then (k, v) else kv) = l1 := by
    rw [show l1 = l1.map id from (List.map_id l1).symm]
    rw [List.map_map]
    apply List.map_congr_left
    intro kv hm
    simp only [Function.comp, id]
    exact if_neg (h kv hm)
  rw [alInsert, alInsert, List.any_append, h1, Bool.false_or]
  by_cases h2 : l2.any (fun kv => kv.1 = k)
  · rw [if_pos h2, if_pos h2, List.map_append, hmap]
  · rw [if_neg h2, if_neg h2, List.append_assoc]

theorem alInsert_mem_or {α : Type} (l : List (String × α)) (k : String) (v : α) :
    ∀ kv ∈ alInsert l k v, kv ∈ l ∨ kv = (k, v) := by
  intro kv hm
  rw [alInsert] at hm
  by_cases h : l.any (fun kv => kv.1 = k)
  · rw [if_pos h] at hm
    rcases List.mem_map.mp hm with ⟨x, hx, hfx⟩
    by_cases hxk : x.1 = k
    · rw [if_pos hxk] at hfx
      exact Or.inr hfx.symm
    · rw [if_neg hxk] at hfx
      exact Or.inl (hfx ▸ hx)
  · rw [if_neg h] at hm
    rcases List.mem_append.mp hm with hm1 | hm2
    · exact Or.inl hm1
    · simp at hm2
      exact Or.inr (by rw [hm2])

theorem virt_infix_of_create (template : Node) (i : Nat) :
    "-virt-".toList <:+: (create_virtual_node template i).id.toList := by
  show "-virt-".toList <:+: (template.name ++ "-virt-" ++ toString i).toList
  refine ⟨template.name.toList, (toString i).toList, ?_⟩
  have : (template.name ++ "-virt-" ++ toString i).toList
      = template.name.toList ++ "-virt-".toList ++ (toString i).toList := by
    simp [String.toList]
  rw [this]


theorem pod_update_update (p : Pod) (X Y : Option String) :
    ({ { p with node := X } with node := Y } : Pod) = { p with node := Y } := rfl

theorem select_best_node_spec (pool : String) (p : Pod)
    (nodes : List (String × Node)) (usage : List (String × NodeUsage)) :
    (select_best_node pool p nodes usage = none ↔
      ∀ kv ∈ nodes, ¬ isPackCandidate pool p usage kv)
    ∧ (∀ bid sc, select_best_node pool p nodes usage = some (bid, sc) →
        (∃ kv ∈ nodes, isPackCandidate pool p usage kv ∧ kv.1 = bid ∧
          sc = candScore p usage kv)
        ∧ (∀ kv ∈ nodes, isPackCandidate pool p usage kv →
            sc ≤ candScore p usage kv)) := by
  rcases select_fold_spec pool p usage nodes none with ⟨h1, h2⟩
  constructor
  · rw [select_best_node, h1]
    simp
  · intro bid sc h
    rcases h2 bid sc h with ⟨hsrc, hmin, _⟩
    rcases hsrc with hgood | habs
    · exact ⟨hgood, hmin⟩
    · simp at habs

theorem place_one_pod_spec (pool : String) (template : Node) (st : PackState)
    (pid : String) (q : Pod) (hq : alGet st.pods pid = some q) :
    (∀ bid sc, select_best_node pool q st.nodes st.usage = some (bid, sc) →
      ∃ st2, place_one_pod pool template st pid = Except.ok st2 ∧
        st2.nodes = st.nodes ∧
        st2.pods = alInsert st.pods pid { q with node := some bid } ∧
        (∃ kv ∈ st.nodes, isPackCandidate pool q st.usage kv ∧ kv.1 = bid ∧
          sc = candScore q st.usage kv) ∧
        (∀ kv ∈ st.nodes, isPackCandidate pool q st.usage kv →
          sc ≤ candScore q st.usage kv))
    ∧ (select_best_node pool q st.nodes st.usage = none →
      (∀ kv ∈ st.nodes, ¬ isPackCandidate pool q st.usage kv) ∧
      ∃ st2, place_one_pod pool template st pid = Except.ok st2 ∧
        st2.nodes = alInsert st.nodes (create_virtual_node template (st.counter + 1)).id
          (create_virtual_node template (st.counter + 1)) ∧
        st2.pods = alInsert st.pods pid
          { q with node := some (create_virtual_node template (st.counter + 1)).id } ∧
        st2.counter = st.counter + 1) := by
  constructor
  · intro bid sc hsel
    have hplace : place_one_pod pool template st pid =
        Except.ok ⟨st.nodes,
          alInsert st.pods pid { q with node := some bid },
          alInsert st.usage bid
            ⟨((alGet st.usage bid).getD {}).cpu_m + q.req_cpu_m,
             ((alGet st.usage bid).getD {}).mem_b + q.req_mem_b⟩,
          st.counter⟩ := by
      simp only [place_one_pod, hq, hsel]
    exact ⟨_, hplace, rfl, rfl,
      ((select_best_node_spec pool q st.nodes st.usage).2 bid sc hsel).1,
      ((select_best_node_spec pool q st.nodes st.usage).2 bid sc hsel).2⟩
  · intro hsel
    have hplace : place_one_pod pool template st pid =
        Except.ok ⟨alInsert st.nodes
            (create_virtual_node template (st.counter + 1)).id
            (create_virtual_node template (st.counter + 1)),
          alInsert st.pods pid
            { q with node := some (create_virtual_node template (st.counter + 1)).id },
          alInsert (alInsert st.usage
              (create_virtual_node template (st.counter + 1)).id {})
            (create_virtual_node template (st.counter + 1)).id
            ⟨((alGet (alInsert st.usage
                  (create_virtual_node template (st.counter + 1)).id {})
                  (create_virtual_node template (st.counter + 1)).id).getD {}).cpu_m
                + q.req_cpu_m,
             ((alGet (alInsert st.usage
                  (create_virtual_node template (st.counter + 1)).id {})
                  (create_virtual_node template (st.counter + 1)).id).getD {}).mem_b
                + q.req_mem_b⟩,
          st.counter + 1⟩ := by
      simp only [place_one_pod, hq, hsel]
    exact ⟨(select_best_node_spec pool q st.nodes st.usage).1.mp hsel,
      _, hplace, rfl, rfl, rfl⟩


theorem baseNodesCopy_keys_no_virt (s : Snapshot)
    (hvirt : ∀ kv ∈ s.nodes, ¬ ("-virt-".toList <:+: kv.1.toList)) :
    ∀ kv ∈ baseNodesCopy s, ¬ ("-virt-".toList <:+: kv.1.toList) := by
  intro kv hm
  rcases List.mem_map.mp hm with ⟨x, hx, hfx⟩
  rw [← hfx]
  exact hvirt x hx

theorem place_one_pod_inv (pool : String) (template : Node) (s : Snapshot)
    (pids : List String) (st st2 : PackState) (pid : String)
    (hpid : pid ∈ pids)
    (hvirt : ∀ kv ∈ s.nodes, ¬ ("-virt-".toList <:+: kv.1.toList))
    (hpods : PodsInvariant s pids st.pods)
    (hnodes : NodesInvariant s template st.nodes)
    (hok : place_one_pod pool template st pid = Except.ok st2) :
    PodsInvariant s pids st2.pods ∧ NodesInvariant s template st2.nodes := by
  cases hq : alGet st.pods pid with
  | none =>
    rw [place_one_pod, hq] at hok
    simp at hok
  | some q =>
    have hPodsAfter : ∀ (bid : String),
        PodsInvariant s pids (alInsert st.pods pid { q with node := some bid }) := by
      intro bid
      constructor
      · intro pid2 hnot
        have hne : pid2 ≠ pid := fun hc => hnot (hc ▸ hpid)
        rw [alGet_alInsert_ne _ _ _ _ hne]
        exact hpods.1 pid2 hnot
      · intro pid2 p hmem horig
        by_cases heq : pid2 = pid
        · subst heq
          rcases hpods.2 pid2 p hmem horig with ⟨X, hX⟩
          rw [hq] at hX
          injection hX with hX1
          refine ⟨some bid, ?_⟩
          rw [alGet_alInsert_self]
          subst hX1
          rfl
        · rw [alGet_alInsert_ne _ _ _ _ heq]
          exact hpods.2 pid2 p hmem horig
    cases hsel : select_best_node pool q st.nodes st.usage with
    | some pair =>
      rcases pair with ⟨bid, sc⟩
      rcases ((place_one_pod_spec pool template st pid q hq).1 bid sc hsel) with
        ⟨st2x, hplace, hn, hp, _, _⟩
      rw [hplace] at hok
      injection hok with hok1
      subst hok1
      exact ⟨hp ▸ hPodsAfter bid, hn ▸ hnodes⟩
    | none =>
      rcases ((place_one_pod_spec pool template st pid q hq).2 hsel) with
        ⟨_, st2x, hplace, hn, hp, _⟩
      rw [hplace] at hok
      injection hok with hok1
      subst hok1
      refine ⟨hp ▸ hPodsAfter _, ?_⟩
      rw [hn]
      rcases hnodes with ⟨extra, hsplit, hextra⟩
      rw [hsplit]
      rw [alInsert_append_left_fresh]
      · refine ⟨alInsert extra (create_virtual_node template (st.counter + 1)).id
          (create_virtual_node template (st.counter + 1)), rfl, ?_⟩
        intro kv hm
        rcases alInsert_mem_or _ _ _ kv hm with hold | hnew
        · exact hextra kv hold
        · exact ⟨st.counter + 1, hnew⟩
      · intro kv hm hc
        have := baseNodesCopy_keys_no_virt s hvirt kv hm
        rw [hc] at this
        exact this (virt_infix_of_create template (st.counter + 1))


theorem foldlM_place_inv (pool : String) (template : Node) (s : Snapshot)
    (pids : List String)
    (hvirt : ∀ kv ∈ s.nodes, ¬ ("-virt-".toList <:+: kv.1.toList)) :
    ∀ (rest : List String) (st st2 : PackState),
    (∀ pid ∈ rest, pid ∈ pids) →
    PodsInvariant s pids st.pods → NodesInvariant s template st.nodes →
    rest.foldlM (place_one_pod pool template) st = Except.ok st2 →
    PodsInvariant s pids st2.pods ∧ NodesInvariant s template st2.nodes := by
  intro rest
  induction rest with
  | nil =>
    intro st st2 _ hpods hnodes hfold
    simp only [List.foldlM_nil] at hfold
    injection hfold with h
    subst h
    exact ⟨hpods, hnodes⟩
  | cons pid tail ih =>
    intro st st2 hsub hpods hnodes hfold
    rw [List.foldlM_cons] at hfold
    cases hstep : place_one_pod pool template st pid with
    | error e =>
      rw [hstep] at hfold
      rw [show ((Except.error e : Except String PackState) >>=
        fun st1 => tail.foldlM (place_one_pod pool template) st1) =
        (Except.error e : Except String PackState) from rfl] at hfold
      exact Except.noConfusion hfold
    | ok st1 =>
      rw [hstep] at hfold
      rw [show ((Except.ok st1 : Except String PackState) >>=
        fun st1 => tail.foldlM (place_one_pod pool template) st1) =
        tail.foldlM (place_one_pod pool template) st1 from rfl] at hfold
      rcases place_one_pod_inv pool template s pids st st1 pid
        (hsub pid (List.mem_cons_self _ _)) hvirt hpods hnodes hstep with ⟨hp1, hn1⟩
      exact ih st1 st2 (fun x hx => hsub x (List.mem_cons_of_mem _ hx)) hp1 hn1 hfold

theorem basePodsCopy_get (s : Snapshot) (pids : List String) (pid : String) :
    alGet (basePodsCopy s pids) pid =
      (alGet s.pods pid).map
        (fun v => if pids.contains pid then copyPodForMove v else v) := by
  have hfun : basePodsCopy s pids =
      s.pods.map (fun kv =>
        (kv.1, if pids.contains kv.1 then copyPodForMove kv.2 else kv.2)) := by
    rw [basePodsCopy]
    apply List.map_congr_left
    intro kv _
    by_cases h : kv.1 ∈ pids <;>
      simp [List.elem_iff.mpr, h, show pids.contains kv.1 = decide (kv.1 ∈ pids) by
        by_cases h2 : kv.1 ∈ pids <;> simp [h2, List.elem_iff]]
  rw [hfun]
  exact alGet_map_keyfun (fun k v => if pids.contains k then copyPodForMove v else v)
    s.pods pid

theorem initPackState_pods_inv (s : Snapshot) (pids : List String) :
    PodsInvariant s pids (initPackState s pids).pods := by
  constructor
  · intro pid hnot
    show alGet (basePodsCopy s pids) pid = alGet s.pods pid
    rw [basePodsCopy_get]
    have hc : pids.contains pid = false := by
      by_cases h2 : pid ∈ pids
      · exact absurd h2 hnot
      · simp [h2, List.elem_iff]
    rw [hc]
    cases alGet s.pods pid <;> simp
  · intro pid p hmem horig
    refine ⟨none, ?_⟩
    show alGet (basePodsCopy s pids) pid = _
    rw [basePodsCopy_get, horig]
    have hc : pids.contains pid = true := List.elem_iff.mpr hmem
    rw [hc]
    rfl

theorem initPackState_nodes_inv {pids : List String} (s : Snapshot) (template : Node) :
    NodesInvariant s template (initPackState s pids).nodes := by
  exact ⟨[], by simp [initPackState], by simp⟩



theorem foldlM_place_ok (pool : String) (template : Node) (s : Snapshot) :
    ∀ (rest : List String) (st : PackState),
    (∀ pid ∈ rest, (alGet s.pods pid).isSome) →
    PresInv s st.pods →
    ∃ st2, rest.foldlM (place_one_pod pool template) st = Except.ok st2 := by
  intro rest
  induction rest with
  | nil => intro st _ _; exact ⟨st, rfl⟩
  | cons pid tail ih =>
    intro st hsome hpres
    have hcur : (alGet st.pods pid).isSome :=
      hpres pid (hsome pid (List.mem_cons_self _ _))
    cases hq : alGet st.pods pid with
    | none => rw [hq] at hcur; simp at hcur
    | some q =>
      have hnext : ∀ bid (st1 : PackState),
          st1.pods = alInsert st.pods pid { q with node := some bid } →
          PresInv s st1.pods := by
        intro bid st1 hp
        intro k hk
        rw [hp]
        by_cases hkp : k = pid
        · subst hkp; rw [alGet_alInsert_self]; simp
        · rw [alGet_alInsert_ne _ _ _ _ hkp]; exact hpres k hk
      cases hsel : select_best_node pool q st.nodes st.usage with
      | some pair =>
        rcases pair with ⟨bid, sc⟩
        rcases (place_one_pod_spec pool template st pid q hq).1 bid sc hsel with
          ⟨st1, hplace, _, hp, _, _⟩
        rcases ih st1 (fun x hx => hsome x (List.mem_cons_of_mem _ hx))
          (hnext bid st1 hp) with ⟨st2, hfold⟩
        refine ⟨st2, ?_⟩
        rw [List.foldlM_cons, hplace]
        rw [show ((Except.ok st1 : Except String PackState) >>=
          fun st1 => tail.foldlM (place_one_pod pool template) st1) =
          tail.foldlM (place_one_pod pool template) st1 from rfl]
        exact hfold
      | none =>
        rcases (place_one_pod_spec pool template st pid q hq).2 hsel with
          ⟨_, st1, hplace, _, hp, _⟩
        rcases ih st1 (fun x hx => hsome x (List.mem_cons_of_mem _ hx))
          (hnext _ st1 hp) with ⟨st2, hfold⟩
        refine ⟨st2, ?_⟩
        rw [List.foldlM_cons, hplace]
        rw [show ((Except.ok st1 : Except String PackState) >>=
          fun st1 => tail.foldlM (place_one_pod pool template) st1) =
          tail.foldlM (place_one_pod pool template) st1 from rfl]
        exact hfold

theorem initPackState_pres (s : Snapshot) (pids : List String) :
    PresInv s (initPackState s pids).pods := by
  intro k hk
  show (alGet (basePodsCopy s pids) k).isSome
  rw [basePodsCopy_get]
  cases hg : alGet s.pods k with
  | none => rw [hg] at hk; simp at hk
  | some v => simp


theorem baseNodesCopy_get (s : Snapshot) (nid : String) :
    alGet (baseNodesCopy s) nid = (alGet s.nodes nid).map copyNodeForMove := by
  rw [baseNodesCopy]
  exact alGet_map_keyfun (fun _ v => copyNodeForMove v) s.nodes nid

/-- C5 (amended): `move_pods_to_pool` preserves everything except the node
assignment of the moved pods AND the fields its copies drop: moved pods keep
all fields but `node`, `usage_cpu_m`, `usage_mem_b`, `active_ratio` (the last
three reset to defaults, as `copyPodForMove` shows); every pre-existing node
keeps all fields except `alloc_pods` and `uptime_hours_24h` (reset to 110 and
24, as `copyNodeForMove` shows); non-moved pods and the remaining snapshot
fields are shared unchanged, except `history_usage` which is dropped. -/
theorem move_pods_to_pool_frame (gp : List (String × ℚ)) (s : Snapshot)
    (pids : List String) (pool : String) (r : Snapshot)
    (hne : pids ≠ [])
    (hvirt : ∀ kv ∈ s.nodes, ¬ ("-virt-".toList <:+: kv.1.toList))
    (hok : move_pods_to_pool gp s pids pool = Except.ok r) :
    (∀ pid, pid ∉ pids → alGet r.pods pid = alGet s.pods pid)
    ∧ (∀ pid p, pid ∈ pids → alGet s.pods pid = some p →
        ∃ X, alGet r.pods pid = some { copyPodForMove p with node := X })
    ∧ (∀ nid n, alGet s.nodes nid = some n →
        alGet r.nodes nid = some (copyNodeForMove n))
    ∧ r.nodepools = s.nodepools ∧ r.prices = s.prices
    ∧ r.schedules = s.schedules ∧ r.keda_pool_name = s.keda_pool_name
    ∧ r.history_usage = [] := by
  rw [move_pods_to_pool] at hok
  rw [if_neg (by simpa using hne)] at hok
  cases htmp : choose_template_for_pool gp s pool with
  | none =>
    rw [htmp] at hok
    exact Except.noConfusion hok
  | some template =>
    rw [htmp] at hok
    have hok2 : (match pids.foldlM (place_one_pod pool template) (initPackState s pids) with
        | Except.error e => (Except.error e : Except String Snapshot)
        | Except.ok st =>
          Except.ok ⟨st.nodes, st.pods, s.nodepools, s.prices, s.schedules,
            s.keda_pool_name, []⟩) = Except.ok r := hok
    cases hfold : pids.foldlM (place_one_pod pool template) (initPackState s pids) with
    | error e =>
      rw [hfold] at hok2
      exact Except.noConfusion hok2
    | ok st =>
      rw [hfold] at hok2
      injection hok2 with hok1
      subst hok1
      rcases foldlM_place_inv pool template s pids hvirt pids
        (initPackState s pids) st (fun _ h => h)
        (initPackState_pods_inv s pids) (initPackState_nodes_inv s template)
        hfold with ⟨hpods, hnodes⟩
      refine ⟨hpods.1, hpods.2, ?_, rfl, rfl, rfl, rfl, rfl⟩
      intro nid n hn
      rcases hnodes with ⟨extra, hsplit, _⟩
      show alGet st.nodes nid = _
      rw [hsplit, alGet_append, baseNodesCopy_get, hn]
      rfl


theorem move_pods_to_pool_eq_of_fold (gp : List (String × ℚ)) (s : Snapshot)
    (pids : List String) (pool : String) (template : Node) (st : PackState)
    (hne : pids ≠ [])
    (htmp : choose_template_for_pool gp s pool = some template)
    (hfold : pids.foldlM (place_one_pod pool template) (initPackState s pids) =
      Except.ok st) :
    move_pods_to_pool gp s pids pool =
      Except.ok ⟨st.nodes, st.pods, s.nodepools, s.prices, s.schedules,
        s.keda_pool_name, []⟩ := by
  rw [move_pods_to_pool, if_neg (by simpa using hne), htmp]
  show (match pids.foldlM (place_one_pod pool template) (initPackState s pids) with
      | Except.error e => (Except.error e : Except String Snapshot)
      | Except.ok st =>
        Except.ok ⟨st.nodes, st.pods, s.nodepools, s.prices, s.schedules,
          s.keda_pool_name, []⟩) = _
  rw [hfold]

/-- C3 (amended): the packer places each moving pod, in input order, on the
candidate node of the target pool that fits its CPU and memory requests
(anti-affinity is NOT consulted) and minimizes
`remaining_cpu_m + remaining_mem_b/1024` after placement; when no candidate
fits it synthesizes `"<template-name>-virt-<N>"` from the cheapest node
(real or virtual) of the pool by the process-wide price table, copying
`instance_type`, `alloc_cpu_m`, `alloc_mem_b`, `labels`, `taints` and
`capacity_type` but resetting `alloc_pods` to 110 (see
`create_virtual_node`); a pool without nodes fails the operation. -/
theorem move_pods_to_pool_amended :
    (∀ (gp : List (String × ℚ)) (s : Snapshot) (pids : List String) (pool : String),
      pids ≠ [] → (∀ n ∈ alValues s.nodes, n.nodepool ≠ pool) →
      move_pods_to_pool gp s pids pool =
        Except.error ("No nodes found in pool " ++ pool ++ ", cannot derive template"))
    ∧ (∀ (gp : List (String × ℚ)) (s : Snapshot) (pids : List String) (pool : String),
        pids ≠ [] → (∀ pid ∈ pids, (alGet s.pods pid).isSome) →
        (∃ n ∈ alValues s.nodes, n.nodepool = pool) →
        ∃ r, move_pods_to_pool gp s pids pool = Except.ok r)
    ∧ (∀ (gp : List (String × ℚ)) (s : Snapshot) (pool : String) (t : Node),
        choose_template_for_pool gp s pool = some t →
        (t ∈ alValues s.nodes ∧ t.nodepool = pool)
        ∧ ∀ n ∈ alValues s.nodes, n.nodepool = pool →
            node_daily_cost gp t ≤ node_daily_cost gp n)
    ∧ (∀ (pool : String) (template : Node) (st : PackState) (pid : String) (q : Pod),
        alGet st.pods pid = some q →
        (∀ bid sc, select_best_node pool q st.nodes st.usage = some (bid, sc) →
          ∃ st2, place_one_pod pool template st pid = Except.ok st2 ∧
            st2.nodes = st.nodes ∧
            st2.pods = alInsert st.pods pid { q with node := some bid } ∧
            (∃ kv ∈ st.nodes, isPackCandidate pool q st.usage kv ∧ kv.1 = bid ∧
              sc = candScore q st.usage kv) ∧
            (∀ kv ∈ st.nodes, isPackCandidate pool q st.usage kv →
              sc ≤ candScore q st.usage kv))
        ∧ (select_best_node pool q st.nodes st.usage = none →
          (∀ kv ∈ st.nodes, ¬ isPackCandidate pool q st.usage kv) ∧
          ∃ st2, place_one_pod pool template st pid = Except.ok st2 ∧
            st2.nodes = alInsert st.nodes
              (create_virtual_node template (st.counter + 1)).id
              (create_virtual_node template (st.counter + 1)) ∧
            st2.pods = alInsert st.pods pid
              { q with node := some (create_virtual_node template (st.counter + 1)).id } ∧
            st2.counter = st.counter + 1)) := by
  refine ⟨?_, ?_, ?_, ?_⟩
  · intro gp s pids pool hne hno
    rw [move_pods_to_pool, if_neg (by simpa using hne)]
    rw [(choose_template_eq_none_iff gp s pool).mpr hno]
  · intro gp s pids pool hne hsome hex
    cases htmp : choose_template_for_pool gp s pool with
    | none =>
      rcases hex with ⟨n, hn, hp⟩
      exact absurd hp ((choose_template_eq_none_iff gp s pool).mp htmp n hn)
    | some template =>
      rcases foldlM_place_ok pool template s pids (initPackState s pids) hsome
        (initPackState_pres s pids) with ⟨st2, hfold⟩
      exact ⟨_, move_pods_to_pool_eq_of_fold gp s pids pool template st2 hne htmp hfold⟩
  · intro gp s pool t h
    exact choose_template_spec gp s pool t h
  · intro pool template st pid q hq
    exact place_one_pod_spec pool template st pid q hq



theorem move_pods_to_pool_amended_witness :
    ((["ns/web-1"] : List String) ≠ []
      ∧ (∀ n ∈ alValues packSnapC3.nodes, n.nodepool ≠ "Z")
      ∧ move_pods_to_pool defaultHourlyPrices packSnapC3 ["ns/web-1"] "Z" =
          Except.error "No nodes found in pool Z, cannot derive template")
    ∧ (∃ r, move_pods_to_pool defaultHourlyPrices packSnapC3
        ["ns/web-1", "ns/web-2", "ns/big"] "B" = Except.ok r)
    ∧ ((packNodeB ∈ alValues packSnapC3.nodes ∧ packNodeB.nodepool = "B")
       ∧ ∀ n ∈ alValues packSnapC3.nodes, n.nodepool = "B" →
           node_daily_cost defaultHourlyPrices packNodeB ≤
             node_daily_cost defaultHourlyPrices n)
    ∧ ((∀ kv ∈ virtWitnessState.nodes,
          ¬ isPackCandidate "B" podBig virtWitnessState.usage kv)
       ∧ ∃ st2, place_one_pod "B" packNodeB virtWitnessState "ns/big" =
           Except.ok st2 ∧
         st2.nodes = alInsert virtWitnessState.nodes
           (create_virtual_node packNodeB 1).id (create_virtual_node packNodeB 1) ∧
         st2.pods = alInsert virtWitnessState.pods "ns/big"
           { podBig with node := some (create_virtual_node packNodeB 1).id } ∧
         st2.counter = 1) := by
  refine ⟨⟨by simp, by decide, ?_⟩, ?_, ?_, ?_⟩
  · exact move_pods_to_pool_amended.1 defaultHourlyPrices packSnapC3
      ["ns/web-1"] "Z" (by simp) (by decide)
  · exact move_pods_to_pool_amended.2.1 defaultHourlyPrices packSnapC3
      ["ns/web-1", "ns/web-2", "ns/big"] "B" (by simp) (by decide) (by decide)
  · exact move_pods_to_pool_amended.2.2.1 defaultHourlyPrices packSnapC3
      "B" packNodeB rfl
  · exact (move_pods_to_pool_amended.2.2.2 "B" packNodeB virtWitnessState
      "ns/big" podBig rfl).2 rfl

theorem move_pods_to_pool_frame_witness :
    ((["ns/app-1"] : List String) ≠ []
      ∧ (∀ kv ∈ frameSnapC5.nodes, ¬ ("-virt-".toList <:+: kv.1.toList)))
    ∧ ((∀ pid, pid ∉ (["ns/app-1"] : List String) →
          alGet moveResultC5.pods pid = alGet frameSnapC5.pods pid)
      ∧ (∀ pid p, pid ∈ (["ns/app-1"] : List String) →
          alGet frameSnapC5.pods pid = some p →
          ∃ X, alGet moveResultC5.pods pid = some { copyPodForMove p with node := X })
      ∧ (∀ nid n, alGet frameSnapC5.nodes nid = some n →
          alGet moveResultC5.nodes nid = some (copyNodeForMove n))
      ∧ moveResultC5.nodepools = frameSnapC5.nodepools
      ∧ moveResultC5.prices = frameSnapC5.prices
      ∧ moveResultC5.schedules = frameSnapC5.schedules
      ∧ moveResultC5.keda_pool_name = frameSnapC5.keda_pool_name
      ∧ moveResultC5.history_usage = []) :=
  ⟨⟨by simp, by decide⟩,
   move_pods_to_pool_frame defaultHourlyPrices frameSnapC5 ["ns/app-1"] "B"
     moveResultC5 (by simp) (by decide) rfl⟩

/-- C4 (amended): `patch_pods_in_snapshot` and `move_pods_to_pool` build new
snapshots and leave the caller's snapshot unchanged, but the delete
operations update the input snapshot in place — after the call the input
coincides with the returned (GC-pruned) snapshot. -/
theorem mutation_ops_aliasing :
    (∀ (s : Snapshot) (pids : List String),
      (delete_pods_op s pids).inputAfter = (delete_pods_op s pids).ret)
    ∧ (∀ (s : Snapshot) (pids : List String) (c m : Option Int)
        (t : Option (List Toleration)) (n : Option (List (String × String)))
        (a : Option Affinity),
        (patch_pods_op s pids c m t n a).inputAfter = s)
    ∧ (∀ (gp : List (String × ℚ)) (s : Snapshot) (pids : List String)
        (pool : String),
        (move_pods_to_pool_op gp s pids pool).2 = s) :=
  ⟨fun _ _ => rfl, fun _ _ _ _ _ _ _ => rfl, fun _ _ _ _ => rfl⟩

/-! ## server.mutate move_owner theorems (claim C6) -/

/-- C6 counterexample: the pod lives in namespace `other`, the operation
names namespace `ns1`, yet the pod is selected (ReplicaSet heuristic),
unbound and retargeted — the claimed namespace filter does not exist. -/
theorem move_owner_ignores_namespace :
    ownerPodOther.«namespace» = "other"
    ∧ (alGet ownerMoveResultC6.pods "other/app-x1").map (·.node) = some none
    ∧ (alGet ownerMoveResultC6.pods "other/app-x1").map
        (fun p => alGet p.node_selector "karpenter.sh/nodepool") =
        some (some "B")
    ∧ (server_move_owner_to_pool ownerSnapC6 "ns1" "Deployment" "app" "B" none).2.length = 1 := by
  decide

/-- C6 (amended): the branch selects pods matching `(owner_kind, owner_name)`
exactly, extended by the Deployment→ReplicaSet prefix heuristic, IGNORING the
namespace argument entirely; every selected pod becomes pending with
`node_selector["karpenter.sh/nodepool"]` set to the target pool, unmatched
pods are untouched, and exactly one log entry is appended. -/
theorem server_move_owner_spec (s : Snapshot)
    (ns ownerKind ownerName targetPool : String) (o : Option Overrides) :
    (∀ ns2, server_move_owner_to_pool s ns ownerKind ownerName targetPool o =
      server_move_owner_to_pool s ns2 ownerKind ownerName targetPool o)
    ∧ (∀ pid, alGet (server_move_owner_to_pool s ns ownerKind ownerName targetPool o).1.pods pid =
        (alGet s.pods pid).map (fun p =>
          if serverOwnerMatch ownerKind ownerName p then
            serverMoveOwnerTransform targetPool o p
          else p))
    ∧ (∀ p, (serverMoveOwnerTransform targetPool o p).node = none
        ∧ alGet (serverMoveOwnerTransform targetPool o p).node_selector
            "karpenter.sh/nodepool" = some targetPool)
    ∧ (∀ p, serverOwnerMatch ownerKind ownerName p = true ↔
        ((p.owner_kind = some ownerKind ∧ p.owner_name = some ownerName)
         ∨ (ownerKind = "Deployment" ∧ p.owner_kind = some "ReplicaSet"
            ∧ p.owner_name.getD "" ≠ ""
            ∧ ownerName.toList <+: (p.owner_name.getD "").toList)))
    ∧ (server_move_owner_to_pool s ns ownerKind ownerName targetPool o).2.length = 1 := by
  refine ⟨fun ns2 => rfl, ?_, ?_, ?_, rfl⟩
  · intro pid
    show alGet (s.pods.map (fun kv =>
      if serverOwnerMatch ownerKind ownerName kv.2 then
        (kv.1, serverMoveOwnerTransform targetPool o kv.2)
      else kv)) pid = _
    have hfun : (s.pods.map (fun kv =>
        if serverOwnerMatch ownerKind ownerName kv.2 then
          (kv.1, serverMoveOwnerTransform targetPool o kv.2)
        else kv)) =
        s.pods.map (fun kv => (kv.1,
          if serverOwnerMatch ownerKind ownerName kv.2 then
            serverMoveOwnerTransform targetPool o kv.2
          else kv.2)) := by
      apply List.map_congr_left
      intro kv _
      by_cases h : serverOwnerMatch ownerKind ownerName kv.2 <;> simp [h]
    rw [hfun]
    exact alGet_map_keyfun
      (fun _ v => if serverOwnerMatch ownerKind ownerName v then
        serverMoveOwnerTransform targetPool o v else v) s.pods pid
  · intro p
    exact ⟨rfl, alGet_alInsert_self _ _ _⟩
  · intro p
    rw [serverOwnerMatch]
    by_cases h1 : p.owner_kind == some ownerKind && p.owner_name == some ownerName
    · rw [if_pos h1]
      simp only [Bool.and_eq_true, beq_iff_eq] at h1
      simp [h1]
    · rw [if_neg h1]
      simp only [Bool.and_eq_true, beq_iff_eq] at h1
      by_cases h2 : ownerKind == "Deployment" && p.owner_kind == some "ReplicaSet"
      · rw [if_pos h2]
        simp only [Bool.and_eq_true, beq_iff_eq] at h2
        constructor
        · intro h3
          simp only [Bool.and_eq_true, bne_iff_ne, ne_eq] at h3
          refine Or.inr ⟨h2.1, h2.2, h3.1, ?_⟩
          have := h3.2
          rw [pyStartsWith] at this
          exact List.isPrefixOf_iff_prefix.mp this
        · intro h3
          rcases h3 with ⟨hk, hn⟩ | ⟨_, _, hne, hpre⟩
          · exact absurd ⟨hk, hn⟩ h1
          · simp only [Bool.and_eq_true, bne_iff_ne, ne_eq]
            exact ⟨hne, by rw [pyStartsWith]; exact List.isPrefixOf_iff_prefix.mpr hpre⟩
      · rw [if_neg h2]
        simp only [Bool.and_eq_true, beq_iff_eq] at h2
        constructor
        · intro h3; simp at h3
        · intro h3
          rcases h3 with ⟨hk, hn⟩ | ⟨hd, hr, _, _⟩
          · exact absurd ⟨hk, hn⟩ h1
          · exact absurd ⟨hd, hr⟩ h2

end GfwSim
namespace GfwSim

/-- C2: every existing node with at least one workload pod is priced at
`price · effective_hours` where effective hours are 24 above the 0.98
cutoff and `min(24, ratio·24 + 0.5)` below it; an existing node with no
workload pods contributes 0; and the two-identical-nodes scenario with
`active_ratio = 0.5` projects `2 · price · 12.5`. -/
theorem duty_cycle_pricing :
    (∀ n : SimNode, n.workload_pods ≠ [] →
      nodeDutyCost n = n.spec.price_hourly *
        (if maxActive n.workload_pods ≥ mkRat 49 50 then 24
         else min 24 (maxActive n.workload_pods * 24 + mkRat 1 2)))
    ∧ (∀ n : SimNode, n.workload_pods = [] → existingNodeContribution n = 0)
    ∧ (run_simulation defaultHourlyPrices dutySnapC2).isOk = true
    ∧ simResultC2.projected_total_cost_usd = 2 * mkRat 1368 10000 * mkRat 25 2 := by
  refine ⟨?_, ?_, ?_, ?_⟩
  · intro n _
    rw [nodeDutyCost, effectiveHours]
    by_cases h : maxActive n.workload_pods < mkRat 49 50
    · rw [if_pos h, if_neg (not_le.mpr h)]
    · rw [if_neg h, if_pos (not_lt.mp h)]
  · intro n h
    simp [existingNodeContribution, SimNode.is_empty, h]
  · with_unfolding_all decide
  · with_unfolding_all decide

/-- Witness for C2 at one concrete node of the duty scenario and one
empty node. -/
theorem duty_cycle_pricing_witness :
    ((ovSimNode 1001).workload_pods ≠ []
      ∧ nodeDutyCost (ovSimNode 1001) = (ovSimNode 1001).spec.price_hourly *
          (if maxActive (ovSimNode 1001).workload_pods ≥ mkRat 49 50 then 24
           else min 24 (maxActive (ovSimNode 1001).workload_pods * 24 + mkRat 1 2)))
    ∧ ((⟨"e", ⟨"t", 1, 1, 1, 1, [], []⟩, "p", true, [], []⟩ : SimNode).workload_pods = []
      ∧ existingNodeContribution ⟨"e", ⟨"t", 1, 1, 1, 1, [], []⟩, "p", true, [], []⟩ = 0) :=
  ⟨⟨by with_unfolding_all decide,
    duty_cycle_pricing.1 (ovSimNode 1001) (by with_unfolding_all decide)⟩,
   ⟨rfl, duty_cycle_pricing.2.1 _ rfl⟩⟩

/-- C7 counterexample: the code's overflow charge does not scale with the
excess — a node 1 millicore over CPU capacity and a node 4000 millicores
over capacity (1 vs 4 claimed node-equivalents) yield identical projected
pool costs. -/
theorem overflow_penalty_ignores_magnitude :
    (run_simulation defaultHourlyPrices (ovSnap 1001)).isOk = true
    ∧ (run_simulation defaultHourlyPrices (ovSnap 5000)).isOk = true
    ∧ ovResultSmall.projected_total_cost_usd = ovResultBig.projected_total_cost_usd
    ∧ claimOverflowEquivalents (ovSimNode 1001) = 1
    ∧ claimOverflowEquivalents (ovSimNode 5000) = 4
    ∧ (ovPod 1001).req_cpu_m = 1001 ∧ (ovPod 5000).req_cpu_m = 5000
    ∧ ovNode.alloc_cpu_m = 1000 := by
  have h1 : ovResultSmall.projected_total_cost_usd = 72 := by
    with_unfolding_all decide
  have h2 : ovResultBig.projected_total_cost_usd = 72 := by
    with_unfolding_all decide
  refine ⟨?_, ?_, h1.trans h2.symm, ?_, ?_, rfl, rfl, rfl⟩ <;>
    with_unfolding_all decide

/-- C7 (amended): any overflow on an existing node adds a flat
`price·24 + price·effective_hours` penalty to the pool's projected cost,
regardless of the excess magnitude; without overflow only the duty-cycle
cost is charged. -/
theorem overflow_flat_penalty :
    (∀ n : SimNode, n.is_empty = false → n.hasOverflow = true →
      existingNodeContribution n =
        nodeDutyCost n + (n.spec.price_hourly * 24 + nodeDutyCost n))
    ∧ (∀ n : SimNode, n.is_empty = false → n.hasOverflow = false →
      existingNodeContribution n = nodeDutyCost n) := by
  constructor
  · intro n he ho
    simp [existingNodeContribution, he, ho]
  · intro n he ho
    simp [existingNodeContribution, he, ho]

/-- Witness for C7 (amended) at the two overflow nodes and a fitting node. -/
theorem overflow_flat_penalty_witness :
    ((ovSimNode 1001).is_empty = false ∧ (ovSimNode 1001).hasOverflow = true
      ∧ existingNodeContribution (ovSimNode 1001) =
          nodeDutyCost (ovSimNode 1001) +
            ((ovSimNode 1001).spec.price_hourly * 24 + nodeDutyCost (ovSimNode 1001)))
    ∧ ((ovSimNode 900).is_empty = false ∧ (ovSimNode 900).hasOverflow = false
      ∧ existingNodeContribution (ovSimNode 900) = nodeDutyCost (ovSimNode 900)) :=
  ⟨⟨by with_unfolding_all decide, by with_unfolding_all decide,
    overflow_flat_penalty.1 (ovSimNode 1001) (by with_unfolding_all decide)
      (by with_unfolding_all decide)⟩,
   ⟨by with_unfolding_all decide, by with_unfolding_all decide,
    overflow_flat_penalty.2 (ovSimNode 900) (by with_unfolding_all decide)
      (by with_unfolding_all decide)⟩⟩

/-- C10: whatever snapshot and price table the simulator is given, any
result it returns carries `total_cost_gfw_nodes_usd = 0` and
`total_cost_keda_nodes_usd = 0` — the constructor at the end of
`run_simulation` hard-codes both. -/
theorem totals_gfw_keda_always_zero (gp : List (String × ℚ)) (s : Snapshot)
    (r : SimulationResult) (h : run_simulation gp s = Except.ok r) :
    r.total_cost_gfw_nodes_usd = 0 ∧ r.total_cost_keda_nodes_usd = 0 := by
  rw [run_simulation, runSimCore] at h
  cases hfold : (dedupFirst ((alValues (hydrateSimNodes
      (simNodesInit (localPrices gp (viewOf s)) (buildCatalog (localPrices gp (viewOf s)) (viewOf s).nodesV) (viewOf s).nodesV)
      (splitPods (viewOf s).podsV).1)).map (fun n => n.pool)
      ++ (viewOf s).poolKeys ++ alKeys (splitPods (viewOf s).podsV).2)).foldlM
      (processPool (localPrices gp (viewOf s))
        (buildCatalog (localPrices gp (viewOf s)) (viewOf s).nodesV)
        (buildS3Templates (viewOf s).podsV)
        (buildDsTemplates (viewOf s).podsV) (splitPods (viewOf s).podsV).2)
      (hydrateSimNodes (simNodesInit (localPrices gp (viewOf s))
        (buildCatalog (localPrices gp (viewOf s)) (viewOf s).nodesV)
        (viewOf s).nodesV) (splitPods (viewOf s).podsV).1, [], 0) with
  | error e =>
    rw [hfold] at h
    exact Except.noConfusion h
  | ok fin =>
    rw [hfold] at h
    injection h with h1
    subst h1
    exact ⟨rfl, rfl⟩

/-- Witness for C10 on the empty snapshot. -/
theorem totals_gfw_keda_always_zero_witness :
    (run_simulation defaultHourlyPrices emptySnap =
      Except.ok ⟨0, [], [], 0, 0, 0⟩)
    ∧ ((⟨0, [], [], 0, 0, 0⟩ : SimulationResult).total_cost_gfw_nodes_usd = 0
      ∧ (⟨0, [], [], 0, 0, 0⟩ : SimulationResult).total_cost_keda_nodes_usd = 0) :=
  ⟨rfl, totals_gfw_keda_always_zero defaultHourlyPrices emptySnap _ rfl⟩

/-! ## Round-trip lemmas (claim C8) -/

theorem alHasKey_eq_keys_contains {β : Type} (l : List (String × β))
    (k : String) : alHasKey l k = (alKeys l).contains k := by
  induction l with
  | nil => rfl
  | cons kv rest ih =>
    simp only [alHasKey, alKeys, List.any_cons, List.map_cons,
      List.contains_cons] at *
    rw [← ih]
    by_cases h : kv.1 = k
    · simp [alHasKey, h]
    · simp [alHasKey, h, Ne.symm h]

theorem alInsert_fresh {β : Type} (l : List (String × β)) (k : String) (v : β)
    (h : alHasKey l k = false) : alInsert l k v = l ++ [(k, v)] := by
  simp only [alHasKey] at h
  simp [alInsert, h]

theorem foldl_alInsert_fresh {α β : Type} (key : α → String) (val : α → β)
    (l : List α) :
    ∀ acc : List (String × β),
    (l.map key).Nodup → (∀ x ∈ l, alHasKey acc (key x) = false) →
    l.foldl (fun d x => alInsert d (key x) (val x)) acc
      = acc ++ l.map (fun x => (key x, val x)) := by
  induction l with
  | nil => intro acc _ _; simp
  | cons x xs ih =>
    intro acc hnd hfresh
    simp only [List.foldl_cons, List.map_cons]
    rw [alInsert_fresh _ _ _ (hfresh x (List.mem_cons_self x xs)), ih]
    · simp
    · simp only [List.map_cons, List.nodup_cons] at hnd
      exact hnd.2
    · intro y hy
      have hne : key x ≠ key y := by
        simp only [List.map_cons, List.nodup_cons] at hnd
        intro he
        exact hnd.1 (he ▸ List.mem_map_of_mem key hy)
      have hacc := hfresh y (List.mem_cons_of_mem x hy)
      simp only [alHasKey] at hacc ⊢
      simp [List.any_append, hacc, hne]

theorem alKeys_skipInsert_fold {α β : Type} (key : α → String) (val : α → β)
    (l : List α) :
    ∀ acc : List (String × β),
    alKeys (l.foldl (fun d x =>
        if alHasKey d (key x) then d else alInsert d (key x) (val x)) acc)
      = (l.map key).foldl
          (fun ks k => if ks.contains k then ks else ks ++ [k])
          (alKeys acc) := by
  induction l with
  | nil => intro acc; simp
  | cons x xs ih =>
    intro acc
    simp only [List.foldl_cons, List.map_cons]
    rw [ih]
    congr 1
    by_cases h : alHasKey acc (key x) = true
    · have hc : (alKeys acc).contains (key x) = true := by
        rw [← alHasKey_eq_keys_contains]; exact h
      rw [if_pos h, if_pos hc]
    · have hf : alHasKey acc (key x) = false := by
        revert h; cases alHasKey acc (key x) <;> simp
      have hc : (alKeys acc).contains (key x) = false := by
        rw [← alHasKey_eq_keys_contains]; exact hf
      rw [if_neg h, alInsert_fresh _ _ _ hf, if_neg]
      · simp [alKeys]
      · simpa using hc

theorem ite_isEmpty_eq_self {γ : Type} (l : List γ) :
    (if l.isEmpty then ([] : List γ) else l) = l := by
  cases l <;> simp

theorem ite_affinity_eq_self (a : Affinity) :
    (if a = Affinity.empty then Affinity.empty else a) = a := by
  by_cases h : a = Affinity.empty <;> simp [h]

/-- A node whose pool is named and whose `alloc_pods` is already the
default survives the round trip up to the fields the simulator reads. -/
theorem nodeView_roundTrip (n : Node) (hp : n.nodepool ≠ "")
    (ha : n.alloc_pods = 110) :
    nodeViewOf (legacyNodeOf n.name (nodeDictOf n)) = nodeViewOf n := by
  simp [nodeViewOf, legacyNodeOf, nodeDictOf, poolStrOf, hp, ha]

/-- A pod with default `active_ratio` and a consistent `is_system` flag
survives the round trip up to the fields the simulator reads. -/
theorem podRead_roundTrip (p : Pod) (har : Pod.active_ratio p = 1)
    (hsys : p.is_system = SYSTEM_NAMESPACES.contains p.«namespace») :
    podReadOf (legacyPodOf p.id (podDictOf p)) = podReadOf p := by
  simp only [podReadOf, legacyPodOf, podDictOf, ite_isEmpty_eq_self,
    ite_affinity_eq_self]
  by_cases h : p.node.getD "" = "" <;> simp [h, har, hsys]

/-- Serialize-then-load preserves the whole view the simulator takes of a
snapshot, under the stated invariants. -/
theorem roundTrip_viewOf (s : Snapshot)
    (hnames : ((alValues s.nodes).map Node.name).Nodup)
    (hids : ((alValues s.pods).map Pod.id).Nodup)
    (hprices : (alKeys s.prices).Nodup)
    (hpool : ∀ n ∈ alValues s.nodes, n.nodepool ≠ "")
    (hap : ∀ n ∈ alValues s.nodes, n.alloc_pods = 110)
    (hpk : alKeys s.nodepools
      = dedupFirst ((alValues s.nodes).map Node.nodepool))
    (har : ∀ p ∈ alValues s.pods, Pod.active_ratio p = 1)
    (hsys : ∀ p ∈ alValues s.pods,
      p.is_system = SYSTEM_NAMESPACES.contains p.«namespace»)
    (hh : s.history_usage = []) :
    viewOf (roundTrip s) = viewOf s := by
  have hbn : (snapshot_to_dict s).baseline_nodes
      = (alValues s.nodes).map (fun n => (Node.name n, nodeDictOf n)) :=
    foldl_alInsert_fresh Node.name nodeDictOf (alValues s.nodes) []
      hnames (fun _ _ => rfl)
  have hbp : (snapshot_to_dict s).baseline_pods
      = (alValues s.pods).map (fun p => (Pod.id p, podDictOf p)) :=
    foldl_alInsert_fresh Pod.id podDictOf (alValues s.pods) []
      hids (fun _ _ => rfl)
  have hpr : (snapshot_to_dict s).prices_by_instance
      = s.prices.map (fun kv => (kv.1, kv.2.usd_per_hour)) :=
    foldl_alInsert_fresh (fun kv : String × InstancePrice => kv.1)
      (fun kv : String × InstancePrice => kv.2.usd_per_hour)
      s.prices [] (by simpa [alKeys] using hprices) (fun _ _ => rfl)
  have hN : (roundTrip s).nodes = (alValues s.nodes).map
      (fun n => (Node.name n, legacyNodeOf (Node.name n) (nodeDictOf n))) := by
    show legacyNodes (snapshot_to_dict s) = _
    rw [legacyNodes, hbn, List.foldl_map]
    exact foldl_alInsert_fresh Node.name
      (fun n => legacyNodeOf (Node.name n) (nodeDictOf n))
      (alValues s.nodes) [] hnames (fun _ _ => rfl)
  have hP : (roundTrip s).pods = (alValues s.pods).map
      (fun p => (Pod.id p, legacyPodOf (Pod.id p) (podDictOf p))) := by
    show legacyPods (snapshot_to_dict s) = _
    rw [legacyPods, hbp, List.foldl_map]
    exact foldl_alInsert_fresh Pod.id
      (fun p => legacyPodOf (Pod.id p) (podDictOf p))
      (alValues s.pods) [] hids (fun _ _ => rfl)
  have hNP : alKeys (roundTrip s).nodepools = alKeys s.nodepools := by
    show alKeys (legacyNodepools (snapshot_to_dict s)) = _
    rw [legacyNodepools, hbn, List.foldl_map]
    have h1 := alKeys_skipInsert_fold
      (fun n : Node => poolStrOf (nodeDictOf n))
      (fun n : Node => legacyPoolOf (snapshot_to_dict s).keda_pool
        (nodeDictOf n))
      (alValues s.nodes) []
    rw [h1, hpk]
    have h2 : (alValues s.nodes).map (fun n => poolStrOf (nodeDictOf n))
        = (alValues s.nodes).map Node.nodepool :=
      List.map_congr_left (fun n hn => by
        simp [poolStrOf, nodeDictOf, hpool n hn])
    rw [h2]
    rfl
  have hPr : (roundTrip s).prices.map (fun kv => (kv.1, kv.2.usd_per_hour))
      = s.prices.map (fun kv => (kv.1, kv.2.usd_per_hour)) := by
    show (merge_price_sources (snapshot_to_dict s)).map _ = _
    rw [merge_price_sources, hpr]
    cases hsp : s.prices with
    | nil => simp
    | cons kv rest =>
      rw [if_neg (by simp)]
      rw [List.foldl_map]
      rw [foldl_alInsert_fresh (fun kv => kv.1)
        (fun kv : String × InstancePrice =>
          (⟨kv.1, kv.2.usd_per_hour, "on_demand",
            "prices_by_instance"⟩ : InstancePrice))
        (kv :: rest) [] (by rw [← hsp]; exact hprices) (fun _ _ => rfl)]
      simp [List.map_map, Function.comp]
  have hH : (roundTrip s).history_usage = s.history_usage := by
    show ([] : List HistoryEntry) = _
    rw [hh]
  simp only [viewOf, SimInput.mk.injEq]
  refine ⟨?_, ?_, hNP, hPr, hH⟩
  · rw [hN]
    simp only [alValues, List.map_map]
    refine List.map_congr_left (fun kv hkv => ?_)
    simp only [Function.comp]
    exact nodeView_roundTrip kv.2
      (hpool kv.2 (List.mem_map_of_mem _ hkv))
      (hap kv.2 (List.mem_map_of_mem _ hkv))
  · rw [hP]
    simp only [alValues, List.map_map]
    refine List.map_congr_left (fun kv hkv => ?_)
    simp only [Function.comp]
    exact podRead_roundTrip kv.2
      (har kv.2 (List.mem_map_of_mem _ hkv))
      (hsys kv.2 (List.mem_map_of_mem _ hkv))

/-- C8 counterexample: a pod active half the day (`active_ratio = 0.5`)
costs `price · 12.5` per day when simulated directly, but the loader never
reads `active_ratio` back, so after serialize-then-load the same snapshot
costs `price · 24`: the round trip changes the simulation result. -/
theorem round_trip_changes_simulation :
    (run_simulation defaultHourlyPrices c8Snap).isOk = true
    ∧ (run_simulation defaultHourlyPrices (roundTrip c8Snap)).isOk = true
    ∧ (alValues c8Snap.pods).map Pod.active_ratio = [mkRat 1 2]
    ∧ (alValues (roundTrip c8Snap).pods).map Pod.active_ratio = [1]
    ∧ c8SimDirect.projected_total_cost_usd = mkRat 25 2
    ∧ c8SimLoaded.projected_total_cost_usd = 24
    ∧ c8SimLoaded ≠ c8SimDirect := by
  refine ⟨?_, ?_, ?_, ?_, ?_, ?_, ?_⟩ <;> with_unfolding_all decide

/-- C8 (amended): serialize-then-load preserves the simulation result only
for snapshots that already carry what the loader forces: nodes keyed by
distinct names with a nonempty pool name and default `alloc_pods`, pods
keyed by distinct ids with default `active_ratio` and an `is_system` flag
matching `SYSTEM_NAMESPACES`, nodepool keys exactly the pools of the nodes
in first-seen order, distinct price keys, and no usage history. -/
theorem snapshot_round_trip_amended (gp : List (String × ℚ)) (s : Snapshot)
    (hnames : ((alValues s.nodes).map Node.name).Nodup)
    (hids : ((alValues s.pods).map Pod.id).Nodup)
    (hprices : (alKeys s.prices).Nodup)
    (hpool : ∀ n ∈ alValues s.nodes, n.nodepool ≠ "")
    (hap : ∀ n ∈ alValues s.nodes, n.alloc_pods = 110)
    (hpk : alKeys s.nodepools
      = dedupFirst ((alValues s.nodes).map Node.nodepool))
    (har : ∀ p ∈ alValues s.pods, Pod.active_ratio p = 1)
    (hsys : ∀ p ∈ alValues s.pods,
      p.is_system = SYSTEM_NAMESPACES.contains p.«namespace»)
    (hh : s.history_usage = []) :
    run_simulation gp (roundTrip s) = run_simulation gp s := by
  show runSimCore gp (viewOf (roundTrip s)) = runSimCore gp (viewOf s)
  rw [roundTrip_viewOf s hnames hids hprices hpool hap hpk har hsys hh]

/-- Witness for C8 (amended) on the single-node overflow snapshot, which
satisfies every invariant the loader forces. -/
theorem snapshot_round_trip_amended_witness :
    (((alValues (ovSnap 1001).nodes).map Node.name).Nodup
      ∧ ((alValues (ovSnap 1001).pods).map Pod.id).Nodup
      ∧ (ovSnap 1001).history_usage = [])
    ∧ run_simulation defaultHourlyPrices (roundTrip (ovSnap 1001))
        = run_simulation defaultHourlyPrices (ovSnap 1001) :=
  ⟨by with_unfolding_all decide,
   snapshot_round_trip_amended defaultHourlyPrices (ovSnap 1001)
     (by with_unfolding_all decide) (by with_unfolding_all decide)
     (by with_unfolding_all decide) (by with_unfolding_all decide)
     (by with_unfolding_all decide) (by with_unfolding_all decide)
     (by with_unfolding_all decide) (by with_unfolding_all decide) rfl⟩

end GfwSim
